import Mathlib

/-!
A shallow embedding of the hot-or-cold-trading repository's core
(src/signals/signal_processor.rs, src/trading/alpaca_trader.rs, src/main.rs)
together with theorems settling the frozen claims.

Modelling conventions:
* Rust `f64` values are modelled as `ℚ` (the embedded programs only compare,
  add, multiply and divide them; no claim is about rounding behaviour).
  Division by zero yields 0 in `ℚ`; no settled claim exercises that point.
* Rust `as i32` casts of `f64` are modelled faithfully as truncation toward
  zero saturated to the i32 range (Rust float-to-int `as` casts saturate).
* Network interactions are modelled by an explicit environment of scripted
  responses; each broker call is recorded in an event trace.  Sleeps are
  recorded as events with their duration in seconds.
* String parsing of numeric JSON fields is abstracted: scripted responses
  carry already-parsed numbers, with explicit constructors for the failure
  shapes the control flow distinguishes.
-/

namespace HotOrCold

/-- Truncation of a rational toward zero (Rust `f64 -> i32` cast semantics
before saturation). -/
def truncRat (x : ℚ) : ℤ :=
  if 0 ≤ x then ⌊x⌋ else ⌈x⌉

/-- Rust `as i32` on an `f64`: truncate toward zero, saturating to the
i32 range. -/
def f64AsI32 (x : ℚ) : ℤ :=
  max (-2147483648) (min 2147483647 (truncRat x))

/-- `TradingConfig` (src/config.rs); only the fields the embedded logic
reads are kept (API keys and URLs feed the HTTP layer, which is abstracted
into the response environment). -/
structure TradingConfig where
  symbol : String
  inverse_symbol : String
  position_size : ℚ
  buy_threshold : ℚ
  sell_threshold : ℚ
  temperature_weight : ℚ
  inventory_weight : ℚ
  storm_weight : ℚ
  deriving Repr, DecidableEq

/-- The default configuration values from `TradingConfig::default`
(src/config.rs) when no environment overrides are present. -/
def defaultConfig : TradingConfig :=
  { symbol := "BOIL"
  , inverse_symbol := "KOLD"
  , position_size := 1000
  , buy_threshold := 3/10
  , sell_threshold := -(3/10)
  , temperature_weight := 1/2
  , inventory_weight := 2/5
  , storm_weight := 1/10 }

/-- `TradingSignal` (src/signals/signal_processor.rs); the timestamp is
dropped (it never influences control flow). -/
structure TradingSignal where
  temperature_signal : ℚ
  inventory_signal : ℚ
  storm_signal : ℚ
  total_signal : ℚ
  action : String
  symbol : String
  confidence : ℚ
  deriving Repr, DecidableEq

/-- `SignalProcessor::calculate_total_signal` (src/signals/signal_processor.rs):
the weighted sum of the three input signals. -/
def calculate_total_signal (cfg : TradingConfig)
    (temp_signal inventory_signal storm_signal : ℚ) : ℚ :=
  temp_signal * cfg.temperature_weight
    + inventory_signal * cfg.inventory_weight
    + storm_signal * cfg.storm_weight

/-- Rust `f64::min` for the confidence clamp, on the `ℚ` model. -/
def qmin (a b : ℚ) : ℚ := min a b

/-- `SignalProcessor::determine_action` (src/signals/signal_processor.rs):
returns `(action, symbol, confidence)`. -/
def determine_action (cfg : TradingConfig) (total_signal : ℚ) :
    String × String × ℚ :=
  if total_signal > cfg.buy_threshold then
    ("BUY", cfg.symbol, qmin (total_signal / cfg.buy_threshold) 2)
  else if total_signal < cfg.sell_threshold then
    ("BUY", cfg.inverse_symbol, qmin (|total_signal| / |cfg.sell_threshold|) 2)
  else
    ("HOLD", "", 0)

/-- `SignalProcessor::create_trading_signal` (src/signals/signal_processor.rs). -/
def create_trading_signal (cfg : TradingConfig)
    (temp_signal inventory_signal storm_signal : ℚ) : TradingSignal :=
  let total_signal := calculate_total_signal cfg temp_signal inventory_signal storm_signal
  let a := determine_action cfg total_signal
  { temperature_signal := temp_signal
  , inventory_signal := inventory_signal
  , storm_signal := storm_signal
  , total_signal := total_signal
  , action := a.1
  , symbol := a.2.1
  , confidence := a.2.2 }

/-! ## Broker data model (src/trading/alpaca_trader.rs) -/

/-- Order side.  The Rust code carries sides as strings ("buy"/"sell"); the
`to_lowercase` comparison in `cancel_opposite_orders` is abstracted by using
an enumeration. -/
inductive Side where
  | buy
  | sell
  deriving Repr, DecidableEq

/-- The opposite side, as computed at line 263 of alpaca_trader.rs. -/
def Side.opposite : Side → Side
  | .buy => .sell
  | .sell => .buy

/-- `Position` (alpaca_trader.rs lines 45-52), numeric fields parsed from the
API's strings. -/
structure Position where
  symbol : String
  qty : ℚ
  market_value : ℚ
  avg_entry_price : ℚ
  unrealized_pl : ℚ
  unrealized_plpc : ℚ
  deriving Repr, DecidableEq

/-- `AlpacaOrder` (alpaca_trader.rs lines 26-42), with numeric fields already
parsed (string parsing is abstracted; a parse failure of the whole body is a
separate scripted response). -/
structure AlpacaOrder where
  id : String
  symbol : String
  qty : ℤ
  side : Side
  status : String
  filled_qty : Option ℤ
  filled_avg_price : Option ℚ
  submitted_at : String
  deriving Repr, DecidableEq

/-- `TradeResult` (alpaca_trader.rs lines 62-72). -/
structure TradeResult where
  order_id : String
  symbol : String
  qty : ℤ
  side : Side
  status : String
  filled_qty : Option ℤ
  filled_avg_price : Option ℚ
  submitted_at : String
  deriving Repr, DecidableEq

/-- Outcome of the position-by-symbol HTTP call, distinguishing exactly the
shapes `get_current_position` (lines 113-144) branches on. -/
inductive PosResp where
  /-- 2xx response with a parseable body. -/
  | found (p : Position)
  /-- HTTP 404 response. -/
  | status404
  /-- `send` error whose message contains "404". -/
  | errWith404
  /-- any other failure (send error without "404", or unparseable body). -/
  | errOther
  deriving Repr, DecidableEq

/-- Outcome of the latest-bar endpoint call (`get_current_price`,
lines 146-213). -/
inductive BarResp where
  /-- success status; `some c` is the parsed `bar.c`, `none` covers an empty
  body, unparseable JSON, missing `bar` or missing/non-numeric `c`
  (all of which produce an error in the source). -/
  | okClose (c : Option ℚ)
  /-- HTTP 404, which triggers the quote fallback. -/
  | status404
  /-- any other non-success status. -/
  | httpErr
  /-- `send` failed (propagated by `?`). -/
  | netErr
  deriving Repr, DecidableEq

/-- Outcome of the latest-quote endpoint call.  `bp`/`ap`/`p` model the
`quote.bp`, `quote.ap`, `quote.p` fields when present and numeric;
unparseable/missing `quote` is merged into the all-`none` case (both produce
an error in the source). -/
inductive QuoteResp where
  | okQuote (bp ap p : Option ℚ)
  /-- non-success status, which triggers the position fallback. -/
  | httpFail
  /-- `send` failed (propagated by `?`). -/
  | netErr
  deriving Repr, DecidableEq

/-- Outcome of one order-submission POST (lines 318-320 and 343-344). -/
inductive SubmitResp where
  /-- success status with a parseable order body. -/
  | accept (o : AlpacaOrder)
  /-- non-success status with the given code and body text. -/
  | reject (code : ℕ) (body : String)
  /-- `send` failed, or the success body was unparseable (both are immediate
  errors with no retry in the source). -/
  | netErr
  deriving Repr, DecidableEq

/-- One observable broker interaction.  `fill` is simulation instrumentation:
it marks an accepted submission, which the simulated broker executes
immediately (used to state post-cycle position properties). -/
inductive Event where
  | posLookup (symbol : String)
  | listOrders (symbol : String)
  /-- a cancellation attempt: the order's id and side, and the side of the
  order about to be placed (the request that triggered the cancel). -/
  | cancelOrder (id : String) (orderSide : Side) (requestSide : Side)
  | submit (side : Side) (qty : ℤ) (symbol : String)
  | fill (side : Side) (qty : ℤ) (symbol : String)
  | poll (id : String)
  | sleepSec (n : ℕ)
  deriving Repr, DecidableEq

/-- Scripted environment: the responses the brokerage returns to each
read-only endpoint, keyed by symbol or order id.  Submission responses are
consumed in order from a separate script list, since the same endpoint may
answer differently on the retry. -/
structure Env where
  posResp : String → PosResp
  barResp : String → BarResp
  quoteResp : String → QuoteResp
  /-- `none` models a failure of `get_open_orders`. -/
  listResp : String → Option (List AlpacaOrder)
  /-- whether cancelling the given order id succeeds. -/
  cancelResp : String → Bool
  /-- `none` models any failure of the post-submission status poll (send
  error, bad status or unparseable body), in which case the source falls
  back to the submission response itself. -/
  pollResp : String → Option AlpacaOrder

/-! ## BrokerClient operations -/

/-- `get_current_position` (alpaca_trader.rs lines 113-144): 404 responses
and send errors mentioning "404" map to `Ok(None)`; other failures are
errors. -/
def get_current_position (env : Env) (symbol : String) :
    Except String (Option Position) × List Event :=
  let ev := [Event.posLookup symbol]
  match env.posResp symbol with
  | .found p => (.ok (some p), ev)
  | .status404 => (.ok none, ev)
  | .errWith404 => (.ok none, ev)
  | .errOther => (.error "Error getting position", ev)

/-- `get_current_price` (alpaca_trader.rs lines 146-213): latest bar, then on
404 the latest quote (bid, then ask, then generic price), then the
market-value/qty of an existing position (only if qty ≠ 0), else an error. -/
def get_current_price (env : Env) (symbol : String) :
    Except String ℚ × List Event :=
  match env.barResp symbol with
  | .netErr => (.error "send failed", [])
  | .httpErr => (.error "Alpaca API returned status", [])
  | .okClose (some c) => (.ok c, [])
  | .okClose none => (.error "No close price in bar data", [])
  | .status404 =>
    match env.quoteResp symbol with
    | .netErr => (.error "send failed", [])
    | .okQuote bp ap p =>
      match (bp.orElse fun _ => ap).orElse fun _ => p with
      | some v => (.ok v, [])
      | none => (.error "No price in quote data", [])
    | .httpFail =>
      let pos := get_current_position env symbol
      match pos.1 with
      | .ok (some position) =>
        if position.qty ≠ 0 then
          (.ok (position.market_value / position.qty), pos.2)
        else
          (.error "both bars and quotes failed, and no position found", pos.2)
      | _ => (.error "both bars and quotes failed, and no position found", pos.2)

/-- The cancellation attempts of `cancel_opposite_orders` (lines 266-283):
one attempt per open order on the opposite side; same-side orders are kept. -/
def cancelAttemptEvents (orders : List AlpacaOrder) (side : Side) : List Event :=
  (orders.filter fun o => o.side == side.opposite).map
    fun o => Event.cancelOrder o.id o.side side

/-- `cancelled_count` of `cancel_opposite_orders`: the number of opposite-side
orders whose cancellation succeeded. -/
def cancelledCount (env : Env) (orders : List AlpacaOrder) (side : Side) : ℕ :=
  ((orders.filter fun o => o.side == side.opposite).filter
    fun o => env.cancelResp o.id).length

/-- `cancel_opposite_orders` (alpaca_trader.rs lines 253-291): list open
orders for the symbol, cancel each order on the opposite side (individual
cancel failures only warned), and sleep 1 second if anything was cancelled.
Only the listing call can make it return an error. -/
def cancel_opposite_orders (env : Env) (symbol : String) (side : Side) :
    Except Unit Unit × List Event :=
  match env.listResp symbol with
  | none => (.error (), [Event.listOrders symbol])
  | some orders =>
    if orders.isEmpty then (.ok (), [Event.listOrders symbol])
    else
      let evs := Event.listOrders symbol :: cancelAttemptEvents orders side
      if 0 < cancelledCount env orders side then
        (.ok (), evs ++ [Event.sleepSec 1])
      else (.ok (), evs)

/-- Character-list matching at the head (helper for the substring test). -/
def matchesAt : List Char → List Char → Bool
  | [], _ => true
  | _ :: _, [] => false
  | p :: ps, c :: cs => p == c && matchesAt ps cs

/-- Substring containment on character lists (helper modelling Rust
`str::contains`). -/
def containsSub (pat : List Char) : List Char → Bool
  | [] => pat.isEmpty
  | c :: rest => matchesAt pat (c :: rest) || containsSub pat rest

/-- `error_text.contains("wash trade")` (alpaca_trader.rs line 324). -/
def containsWashTrade (body : String) : Bool :=
  containsSub "wash trade".data body.data

/-- Pop the next scripted submission response; an exhausted script behaves
as a network error. -/
def takeSubmit : List SubmitResp → SubmitResp × List SubmitResp
  | [] => (.netErr, [])
  | r :: rest => (r, rest)

/-- The post-submission status refresh (alpaca_trader.rs lines 357-381 and
407-431): if the submitted order has an id, poll it once; on any poll failure
fall back to the submission response itself. -/
def resolve_order_status (env : Env) (order : AlpacaOrder) :
    AlpacaOrder × List Event :=
  if order.id ≠ "" then
    match env.pollResp order.id with
    | some status => (status, [Event.poll order.id])
    | none => (order, [Event.poll order.id])
  else (order, [])

/-- Build a `TradeResult` from a (possibly refreshed) order
(alpaca_trader.rs lines 383-392 and 433-442). -/
def mkTradeResult (o : AlpacaOrder) : TradeResult :=
  { order_id := o.id
  , symbol := o.symbol
  , qty := o.qty
  , side := o.side
  , status := o.status
  , filled_qty := o.filled_qty
  , filled_avg_price := o.filled_avg_price
  , submitted_at := o.submitted_at }

/-- The happy tail of a submission (lines 355-395 / 405-445): the broker
fills the accepted order (simulation instrumentation), the code sleeps 2
seconds and refreshes the order status once. -/
def submissionSuccess (env : Env) (order : AlpacaOrder) (side : Side)
    (qty : ℤ) (symbol : String) : TradeResult × List Event :=
  let r := resolve_order_status env order
  (mkTradeResult r.1,
    [Event.fill side qty symbol, Event.sleepSec 2] ++ r.2)

/-- `place_market_order` (alpaca_trader.rs lines 293-446): cancel opposite
resting orders (failures only warned), submit; on a 403 rejection whose body
mentions "wash trade", cancel opposite orders again, sleep 2 seconds and
retry exactly once; a failed retry (or any other failure) is an error. -/
def place_market_order (env : Env) (side : Side) (qty : ℤ) (symbol : String)
    (script : List SubmitResp) :
    Except String TradeResult × List SubmitResp × List Event :=
  let c := cancel_opposite_orders env symbol side
  let t := takeSubmit script
  let evs1 := c.2 ++ [Event.submit side qty symbol]
  match t.1 with
  | .accept order =>
    let s := submissionSuccess env order side qty symbol
    (.ok s.1, t.2, evs1 ++ s.2)
  | .netErr => (.error "send failed", t.2, evs1)
  | .reject code body =>
    if code = 403 ∧ containsWashTrade body then
      let c2 := cancel_opposite_orders env symbol side
      let t2 := takeSubmit t.2
      let evs2 := evs1 ++ c2.2 ++ [Event.sleepSec 2, Event.submit side qty symbol]
      match t2.1 with
      | .accept order =>
        let s := submissionSuccess env order side qty symbol
        (.ok s.1, t2.2, evs2 ++ s.2)
      | _ => (.error "Alpaca API error after retry", t2.2, evs2)
    else
      (.error "Alpaca API error", t.2, evs1)

/-! ## OrderReconciler: `execute_trade` -/

/-- The liquidation decision for the opposite symbol's position
(alpaca_trader.rs lines 476-491 / 553-568): if a position exists with
qty > 0, sell `qty.abs() as i32`; the result of the sell is only logged. -/
def oppositeLiquidationQty (pos : Option Position) : Option ℤ :=
  match pos with
  | some kp => if kp.qty > 0 then some (f64AsI32 |kp.qty|) else none
  | none => none

/-- The stale-position close decision in the target branch
(alpaca_trader.rs lines 494-518): guarded by `qty > 0.0` and then by
`boil_pos.qty > 0.0 && qty > 0` on the truncated quantity. -/
def staleCloseQtyTarget (pos : Option Position) : Option ℤ :=
  match pos with
  | some bp =>
    if bp.qty > 0 then
      let q := f64AsI32 |bp.qty|
      if bp.qty > 0 ∧ 0 < q then some q else none
    else none
  | none => none

/-- The stale-position close decision in the inverse branch
(alpaca_trader.rs lines 571-593): guarded by `qty > 0.0` and then by
`qty > 0` on the truncated quantity. -/
def staleCloseQtyInverse (pos : Option Position) : Option ℤ :=
  match pos with
  | some kp =>
    if kp.qty > 0 then
      let q := f64AsI32 |kp.qty|
      if 0 < q then some q else none
    else none
  | none => none

/-- The buy-quantity computation
`(self.config.position_size / price).max(1.0) as i32`
(alpaca_trader.rs lines 524 and 599). -/
def buyQty (position_size price : ℚ) : ℤ :=
  f64AsI32 (max (position_size / price) 1)

/-- `.ok().flatten()` on a position lookup (alpaca_trader.rs lines 466-467):
lookup errors collapse to `none`. -/
def okFlatten (r : Except String (Option Position)) : Option Position :=
  match r with
  | .ok p => p
  | .error _ => none

/-- One optional liquidation sell of `execute_trade`: place the given
quantity as a market sell through `place_market_order` when the plan demands
it; the result is discarded (only logged in the source), so only the consumed
script and the trace matter downstream. -/
def runSellStep (env : Env) (sym : String) (plan : Option ℤ)
    (script : List SubmitResp) : List SubmitResp × List Event :=
  match plan with
  | some q =>
    let r := place_market_order env .sell q sym script
    (r.2.1, r.2.2)
  | none => (script, [])

/-- One leg of `execute_trade`: buying `buySym` after liquidating `sellSym`
(the branches at alpaca_trader.rs lines 472-548 and 549-623 are mirror
images of each other over (buySym, sellSym) = (symbol, inverse_symbol) and
its swap; the only asymmetry, the shape of the stale-close guard, is passed
in as `staleClose`).  `buyPos`/`sellPos` are the already-fetched positions
of `buySym`/`sellSym`.  Returns (optional trade result, remaining
submission script, event trace). -/
def executeBuyLeg (env : Env) (cfg : TradingConfig)
    (buySym sellSym : String) (buyPos sellPos : Option Position)
    (staleClose : Option Position → Option ℤ)
    (script : List SubmitResp) :
    Option TradeResult × List SubmitResp × List Event :=
  -- mutual exclusivity: sell the whole opposite position first; a failure
  -- is logged and execution continues
  let sell1 := runSellStep env sellSym (oppositeLiquidationQty sellPos) script
  -- close any stale position in the symbol being bought; a failure is
  -- logged (an "insufficient qty" message only changes the log level) and
  -- execution continues
  let sell2 := runSellStep env buySym (staleClose buyPos) sell1.1
  -- fetch the price, size the buy, place it; a price failure or the buy's
  -- own unrecovered failure yields no TradeResult
  let pr := get_current_price env buySym
  match pr.1 with
  | .ok price =>
    let qty := buyQty cfg.position_size price
    let r := place_market_order env .buy qty buySym sell2.1
    match r.1 with
    | .ok result => (some result, r.2.1, sell1.2 ++ sell2.2 ++ pr.2 ++ r.2.2)
    | .error _ => (none, r.2.1, sell1.2 ++ sell2.2 ++ pr.2 ++ r.2.2)
  | .error _ => (none, sell2.1, sell1.2 ++ sell2.2 ++ pr.2)

/-- `execute_trade` (alpaca_trader.rs lines 448-630).  Non-BUY actions are a
pure no-op; otherwise both tracked positions are fetched (errors collapsing
to `none`), and the branch for the signalled symbol runs; an unsupported
symbol performs nothing further. -/
def execute_trade (env : Env) (cfg : TradingConfig) (signal : TradingSignal)
    (script : List SubmitResp) :
    Option TradeResult × List SubmitResp × List Event :=
  if signal.action ≠ "BUY" then (none, script, [])
  else
    let b := get_current_position env cfg.symbol
    let k := get_current_position env cfg.inverse_symbol
    let boil_position := okFlatten b.1
    let kold_position := okFlatten k.1
    let evs0 := b.2 ++ k.2
    if signal.symbol = cfg.symbol then
      let r := executeBuyLeg env cfg cfg.symbol cfg.inverse_symbol
        boil_position kold_position staleCloseQtyTarget script
      (r.1, r.2.1, evs0 ++ r.2.2)
    else if signal.symbol = cfg.inverse_symbol then
      let r := executeBuyLeg env cfg cfg.inverse_symbol cfg.symbol
        kold_position boil_position staleCloseQtyInverse script
      (r.1, r.2.1, evs0 ++ r.2.2)
    else
      (none, script, evs0)

/-! ## Simulated broker fills

The spec's testable properties speak about "a simulated broker": market
orders accepted by the broker execute immediately.  A `fill` event adjusts
the quantity of an existing position row by the filled amount (rows for
symbols with no prior position are not tracked — no settled property reads
them); other events leave positions unchanged. -/

def applyFillEvent (positions : List Position) : Event → List Position
  | .fill side qty sym =>
    positions.map fun p =>
      { p with qty := p.qty +
          (if p.symbol = sym then
            (match side with
             | .buy => (qty : ℚ)
             | .sell => -(qty : ℚ))
           else 0) }
  | _ => positions

def simulateFills (positions : List Position) (trace : List Event) :
    List Position :=
  trace.foldl applyFillEvent positions

/-- The simulated broker's quantity for a symbol (0 when no row exists). -/
def simQty (positions : List Position) (sym : String) : ℚ :=
  match positions.find? fun p => p.symbol = sym with
  | some p => p.qty
  | none => 0

/-- The signed effect of one event on the simulated quantity of symbol `s`:
a fill of a buy adds its quantity, a fill of a sell subtracts it, every
other event contributes nothing. -/
def fillEventDelta (s : String) : Event → ℚ
  | .fill side qty sym =>
    if sym = s then
      match side with
      | .buy => (qty : ℚ)
      | .sell => -(qty : ℚ)
    else 0
  | _ => 0

/-- The total signed fill effect of a trace on symbol `s`. -/
def fillDelta (tr : List Event) (s : String) : ℚ :=
  (tr.map (fillEventDelta s)).sum

/-! ## The orchestrator (src/main.rs) -/

/-- Everything one trading cycle consumes: the three fetched signal values
(each fetcher returns a plain number, degrading failures to a neutral value
internally), the broker response environment and submission script, and the
outcome of the portfolio-summary fetch. -/
structure CycleEnv where
  temp_signal : ℚ
  inventory_signal : ℚ
  storm_signal : ℚ
  brokerEnv : Env
  script : List SubmitResp
  portfolioOk : Bool

/-- `run_trading_cycle` (main.rs lines 107-155).  Its body is an irrefutable
match on the signal triple that ends in `true`: signal fetching is
infallible (fetchers degrade internally), logging returns unit, a failed
`execute_trade` yields `None` which is logged as such, and a failed
portfolio fetch is only logged — so every path returns `true`. -/
def run_trading_cycle (cfg : TradingConfig) (c : CycleEnv) : Bool :=
  let signal := create_trading_signal cfg c.temp_signal c.inventory_signal
    c.storm_signal
  let _trade := execute_trade c.brokerEnv cfg signal c.script
  let _portfolio := c.portfolioOk
  true

/-- The inter-cycle wait chosen by `run_continuous` (main.rs lines 160-172):
the configured interval after a cycle reporting success, a fixed 300-second
backoff after a cycle reporting failure. -/
def cycleSleepSeconds (interval_hours : ℕ) (cycleSucceeded : Bool) : ℕ :=
  if cycleSucceeded then interval_hours * 3600 else 300

/-! ## Concrete fixtures (mock brokers and decisions used to instantiate
the scenario theorems) -/

/-- A broker order with the bookkeeping fields fixed (they never influence
control flow in the embedded code). -/
def mkOrder (id sym : String) (side : Side) (qty : ℤ) : AlpacaOrder :=
  { id := id
  , symbol := sym
  , qty := qty
  , side := side
  , status := "accepted"
  , filled_qty := none
  , filled_avg_price := none
  , submitted_at := "2024-01-01T00:00:00Z" }

/-- A broker position with the given symbol, quantity and market value. -/
def mkPosition (sym : String) (q mv : ℚ) : Position :=
  { symbol := sym
  , qty := q
  , market_value := mv
  , avg_entry_price := 0
  , unrealized_pl := 0
  , unrealized_plpc := 0 }

/-- A cooperative mock broker: position lookups answer from the given list
(404 for unknown symbols), the bar endpoint quotes every symbol at 10, no
resting open orders, cancellations and polls behave trivially. -/
def cleanEnv (positions : List Position) : Env :=
  { posResp := fun s =>
      match positions.find? fun p => p.symbol = s with
      | some p => .found p
      | none => .status404
  , barResp := fun _ => .okClose (some 10)
  , quoteResp := fun _ => .httpFail
  , listResp := fun _ => some []
  , cancelResp := fun _ => true
  , pollResp := fun _ => none }

/-- A BUY decision for the given symbol. -/
def buySignal (sym : String) : TradingSignal :=
  { temperature_signal := 1
  , inventory_signal := 0
  , storm_signal := 0
  , total_signal := 1/2
  , action := "BUY"
  , symbol := sym
  , confidence := 1 }

/-- A HOLD decision. -/
def holdSignal : TradingSignal :=
  { temperature_signal := 0
  , inventory_signal := 0
  , storm_signal := 0
  , total_signal := 0
  , action := "HOLD"
  , symbol := ""
  , confidence := 0 }

/-- A rejection body flagging a wash-trade conflict. -/
def washBody : String := "403 Forbidden: potential wash trade detected"

def orderA : AlpacaOrder := mkOrder "a" "KOLD" .sell 5

def orderB : AlpacaOrder := mkOrder "b" "BOIL" .buy 100

/-- Mock broker for the price-fallback scenario: the bar endpoint 404s and
the quote endpoint returns only an ask price. -/
def envAsk : Env :=
  { cleanEnv [] with
    barResp := fun _ => .status404
  , quoteResp := fun _ => .okQuote none (some (85/2)) none }

/-- Mock broker for the position-derived-price scenario: both price
endpoints fail but a position with qty 10 and market value 1000 exists. -/
def envPosFallback : Env :=
  { cleanEnv [mkPosition "BOIL" 10 1000] with
    barResp := fun _ => .status404
  , quoteResp := fun _ => .httpFail }

def restingBuyOrder : AlpacaOrder := mkOrder "rb" "KOLD" .buy 1

def restingSellOrder : AlpacaOrder := mkOrder "rs" "KOLD" .sell 2

/-- Mock broker for the liquidation scenario: a KOLD position of 3 shares
and two resting KOLD orders, one on each side. -/
def envLiquidation : Env :=
  { cleanEnv [mkPosition "KOLD" 3 30] with
    listResp := fun s =>
      if s = "KOLD" then some [restingBuyOrder, restingSellOrder]
      else some [] }

/-- Submission script: both submissions accepted. -/
def acceptScript2 : List SubmitResp := [.accept orderA, .accept orderB]

/-- Submission script: first submission wash-rejected, second accepted. -/
def washThenAcceptScript : List SubmitResp :=
  [.reject 403 washBody, .accept orderB]

/-- Submission script: both submissions wash-rejected. -/
def doubleWashScript : List SubmitResp :=
  [.reject 403 washBody, .reject 403 washBody]

/-- Submission script: the liquidation sell is wash-rejected once and then
accepted, the final buy is accepted. -/
def washLiquidationScript : List SubmitResp :=
  [.reject 403 washBody, .accept orderA, .accept orderB]

/-- Submission script: the liquidation sell fails outright (a non-wash
rejection), the final buy is accepted. -/
def failSellScript : List SubmitResp :=
  [.reject 422 "insufficient qty available", .accept orderB]

/-- A configuration whose thresholds are inverted
(sell_threshold > buy_threshold); reachable through the BUY_THRESHOLD and
SELL_THRESHOLD environment variables. -/
def cfgInverted : TradingConfig :=
  { defaultConfig with buy_threshold := -1, sell_threshold := 1 }

/-! ## Trace predicates and helper lemmas -/

/-- Does the event represent an order submission? -/
def isSubmit : Event → Bool
  | .submit _ _ _ => true
  | _ => false

/-- Number of order submissions in a trace. -/
def submitCount (evs : List Event) : ℕ := evs.countP isSubmit

/-- An event with no broker-visible request of its own, as appearing after a
successful submission (fill instrumentation, sleeps, the status poll). -/
def passiveEvent : Event → Bool
  | .fill _ _ _ => true
  | .sleepSec _ => true
  | .poll _ => true
  | _ => false

/-- Every cancellation attempt in the trace targets an order whose side is
opposite to the side of the order being placed. -/
def cancelOpposed : Event → Prop
  | .cancelOrder _ oSide rSide => oSide = rSide.opposite
  | _ => True

/-- Does the event mutate broker state (cancel or submission)?  Position
lookups, order listings, polls and sleeps are read-only. -/
def isMutating : Event → Bool
  | .cancelOrder _ _ _ => true
  | .submit _ _ _ => true
  | .fill _ _ _ => true
  | _ => false

theorem mem_cancelAttemptEvents {orders : List AlpacaOrder} {side : Side}
    {e : Event} (h : e ∈ cancelAttemptEvents orders side) :
    ∃ o ∈ orders, o.side = side.opposite ∧
      e = Event.cancelOrder o.id o.side side := by
  simp only [cancelAttemptEvents, List.mem_map, List.mem_filter, beq_iff_eq]
    at h
  obtain ⟨o, ⟨ho, hside⟩, he⟩ := h
  exact ⟨o, ho, hside, he.symm⟩

theorem cancel_no_submit (env : Env) (sym : String) (side : Side) :
    ∀ e ∈ (cancel_opposite_orders env sym side).2, isSubmit e = false := by
  intro e he
  unfold cancel_opposite_orders at he
  split at he
  · simp only [List.mem_singleton] at he; subst he; rfl
  · split at he
    · simp only [List.mem_singleton] at he; subst he; rfl
    · split at he <;>
        simp only [List.cons_append, List.mem_cons, List.mem_append,
          List.mem_singleton, List.not_mem_nil, or_false] at he
      · rcases he with rfl | he | rfl
        · rfl
        · obtain ⟨o, _, _, rfl⟩ := mem_cancelAttemptEvents he; rfl
        · rfl
      · rcases he with rfl | he
        · rfl
        · obtain ⟨o, _, _, rfl⟩ := mem_cancelAttemptEvents he; rfl

theorem cancel_cancelOpposed (env : Env) (sym : String) (side : Side) :
    ∀ e ∈ (cancel_opposite_orders env sym side).2, cancelOpposed e := by
  intro e he
  unfold cancel_opposite_orders at he
  split at he
  · simp only [List.mem_singleton] at he; subst he; trivial
  · split at he
    · simp only [List.mem_singleton] at he; subst he; trivial
    · split at he <;>
        simp only [List.cons_append, List.mem_cons, List.mem_append,
          List.mem_singleton, List.not_mem_nil, or_false] at he
      · rcases he with rfl | he | rfl
        · trivial
        · obtain ⟨o, _, hside, rfl⟩ := mem_cancelAttemptEvents he
          exact hside
        · trivial
      · rcases he with rfl | he
        · trivial
        · obtain ⟨o, _, hside, rfl⟩ := mem_cancelAttemptEvents he
          exact hside

theorem cancel_trace_head (env : Env) (sym : String) (side : Side) :
    ∃ t, (cancel_opposite_orders env sym side).2 =
      Event.listOrders sym :: t := by
  unfold cancel_opposite_orders
  split
  · exact ⟨[], rfl⟩
  · split
    · exact ⟨[], rfl⟩
    · split
      · exact ⟨_, List.cons_append _ _ _⟩
      · exact ⟨_, rfl⟩

theorem resolve_trace (env : Env) (order : AlpacaOrder) :
    (resolve_order_status env order).2 = [] ∨
    (resolve_order_status env order).2 = [Event.poll order.id] := by
  unfold resolve_order_status
  split
  · split <;> exact Or.inr rfl
  · exact Or.inl rfl

theorem submissionSuccess_passive (env : Env) (order : AlpacaOrder)
    (side : Side) (qty : ℤ) (symbol : String) :
    ∀ e ∈ (submissionSuccess env order side qty symbol).2,
      passiveEvent e = true := by
  intro e he
  simp only [submissionSuccess] at he
  rcases resolve_trace env order with h | h <;> rw [h] at he <;>
    simp only [List.cons_append, List.nil_append, List.append_nil,
      List.mem_cons, List.mem_singleton, List.not_mem_nil, or_false] at he
  · rcases he with rfl | rfl <;> rfl
  · rcases he with rfl | rfl | rfl <;> rfl

/-- Trace characterization of `place_market_order`: the trace is the
cancellation preamble followed by one submission and, only in the
wash-trade-retry case, a second preamble, the 2-second settle sleep and
exactly one more submission; everything after a submission is passive. -/
theorem place_trace_cases (env : Env) (side : Side) (qty : ℤ) (sym : String)
    (script : List SubmitResp) :
    ∃ tail, (∀ e ∈ tail, passiveEvent e = true) ∧
      ((place_market_order env side qty sym script).2.2 =
        (cancel_opposite_orders env sym side).2 ++
          Event.submit side qty sym :: tail ∨
       (place_market_order env side qty sym script).2.2 =
        (cancel_opposite_orders env sym side).2 ++
          Event.submit side qty sym ::
            ((cancel_opposite_orders env sym side).2 ++
              Event.sleepSec 2 :: Event.submit side qty sym :: tail)) := by
  simp only [place_market_order]
  split
  · next _ order _ =>
    exact ⟨(submissionSuccess env order side qty sym).2,
      submissionSuccess_passive env order side qty sym,
      Or.inl (by simp)⟩
  · exact ⟨[], by simp, Or.inl (by simp)⟩
  · split
    · split
      · next _ order _ =>
        exact ⟨(submissionSuccess env order side qty sym).2,
          submissionSuccess_passive env order side qty sym,
          Or.inr (by simp)⟩
      · exact ⟨[], by simp, Or.inr (by simp)⟩
    · exact ⟨[], by simp, Or.inl (by simp)⟩

theorem isSubmit_eq_false_of_passive {e : Event}
    (h : passiveEvent e = true) : isSubmit e = false := by
  cases e <;> simp_all [passiveEvent, isSubmit]

theorem cancelOpposed_of_passive {e : Event}
    (h : passiveEvent e = true) : cancelOpposed e := by
  cases e <;> simp_all [passiveEvent, cancelOpposed]

theorem countP_isSubmit_zero {l : List Event}
    (h : ∀ e ∈ l, isSubmit e = false) : l.countP isSubmit = 0 :=
  List.countP_eq_zero.mpr (by simpa using h)

/-- `place_market_order` performs at most two submissions (retry at most
once). -/
theorem place_submitCount_le_two (env : Env) (side : Side) (qty : ℤ)
    (sym : String) (script : List SubmitResp) :
    submitCount (place_market_order env side qty sym script).2.2 ≤ 2 := by
  obtain ⟨tail, hpass, h | h⟩ := place_trace_cases env side qty sym script <;>
    rw [submitCount, h] <;>
    simp only [List.countP_append, List.countP_cons,
      countP_isSubmit_zero (cancel_no_submit env sym side),
      countP_isSubmit_zero (fun e he => isSubmit_eq_false_of_passive (hpass e he))] <;>
    simp [isSubmit]

/-- Every submission event in a `place_market_order` trace is exactly the
requested order (side, quantity, symbol). -/
theorem place_submits (env : Env) (side : Side) (qty : ℤ) (sym : String)
    (script : List SubmitResp) :
    ∀ e ∈ (place_market_order env side qty sym script).2.2,
      isSubmit e = true → e = Event.submit side qty sym := by
  intro e he hs
  obtain ⟨tail, hpass, h | h⟩ := place_trace_cases env side qty sym script <;>
    rw [h] at he <;>
    simp only [List.mem_append, List.mem_cons] at he
  · rcases he with he | rfl | he
    · rw [cancel_no_submit env sym side e he] at hs; cases hs
    · rfl
    · rw [isSubmit_eq_false_of_passive (hpass e he)] at hs; cases hs
  · rcases he with he | rfl | he | rfl | rfl | he
    · rw [cancel_no_submit env sym side e he] at hs; cases hs
    · rfl
    · rw [cancel_no_submit env sym side e he] at hs; cases hs
    · cases hs
    · rfl
    · rw [isSubmit_eq_false_of_passive (hpass e he)] at hs; cases hs

/-- Every cancellation attempt in a `place_market_order` trace targets an
opposite-side order. -/
theorem place_cancelOpposed (env : Env) (side : Side) (qty : ℤ)
    (sym : String) (script : List SubmitResp) :
    ∀ e ∈ (place_market_order env side qty sym script).2.2,
      cancelOpposed e := by
  intro e he
  obtain ⟨tail, hpass, h | h⟩ := place_trace_cases env side qty sym script <;>
    rw [h] at he <;>
    simp only [List.mem_append, List.mem_cons] at he
  · rcases he with he | rfl | he
    · exact cancel_cancelOpposed env sym side e he
    · trivial
    · exact cancelOpposed_of_passive (hpass e he)
  · rcases he with he | rfl | he | rfl | rfl | he
    · exact cancel_cancelOpposed env sym side e he
    · trivial
    · exact cancel_cancelOpposed env sym side e he
    · trivial
    · trivial
    · exact cancelOpposed_of_passive (hpass e he)

/-- Every `place_market_order` trace begins by listing the symbol's open
orders: the cancel-conflicting-orders preamble runs before any submission. -/
theorem place_trace_head (env : Env) (side : Side) (qty : ℤ) (sym : String)
    (script : List SubmitResp) :
    ∃ t, (place_market_order env side qty sym script).2.2 =
      Event.listOrders sym :: t := by
  obtain ⟨tail, _, h | h⟩ := place_trace_cases env side qty sym script <;>
    obtain ⟨t0, hc⟩ := cancel_trace_head env sym side <;>
    rw [h, hc] <;> exact ⟨_, rfl⟩

theorem pos_trace (env : Env) (sym : String) :
    (get_current_position env sym).2 = [Event.posLookup sym] := by
  unfold get_current_position
  split <;> rfl

theorem price_trace (env : Env) (sym : String) :
    (get_current_price env sym).2 = [] ∨
    (get_current_price env sym).2 = [Event.posLookup sym] := by
  simp only [get_current_price]
  repeat' split
  all_goals dsimp only
  all_goals first
    | exact Or.inl rfl
    | exact Or.inr (pos_trace env sym)

/-- The requested submission always appears in the `place_market_order`
trace. -/
theorem place_submit_mem (env : Env) (side : Side) (qty : ℤ) (sym : String)
    (script : List SubmitResp) :
    Event.submit side qty sym ∈ (place_market_order env side qty sym script).2.2 := by
  obtain ⟨tail, _, h | h⟩ := place_trace_cases env side qty sym script <;>
    rw [h] <;> simp

theorem runSellStep_trace (env : Env) (sym : String) (plan : Option ℤ)
    (script : List SubmitResp) :
    ((runSellStep env sym plan script).2 = [] ∧ plan = none) ∨
    ∃ q, plan = some q ∧ (runSellStep env sym plan script).2 =
      (place_market_order env .sell q sym script).2.2 := by
  cases plan with
  | none => exact Or.inl ⟨rfl, rfl⟩
  | some q => exact Or.inr ⟨q, rfl, rfl⟩

/-- The trace of one buy leg is the liquidation-sell trace, the stale-close
trace, the price fetch's trace and, when the price was obtained, the buy's
own `place_market_order` trace, in that order. -/
theorem executeBuyLeg_trace_eq (env : Env) (cfg : TradingConfig)
    (buySym sellSym : String) (buyPos sellPos : Option Position)
    (staleClose : Option Position → Option ℤ) (script : List SubmitResp) :
    (executeBuyLeg env cfg buySym sellSym buyPos sellPos staleClose
        script).2.2 =
      (runSellStep env sellSym (oppositeLiquidationQty sellPos) script).2 ++
      ((runSellStep env buySym (staleClose buyPos)
        (runSellStep env sellSym (oppositeLiquidationQty sellPos)
          script).1).2 ++
      ((get_current_price env buySym).2 ++
      (match (get_current_price env buySym).1 with
       | .ok price =>
         (place_market_order env .buy (buyQty cfg.position_size price)
           buySym (runSellStep env buySym (staleClose buyPos)
             (runSellStep env sellSym (oppositeLiquidationQty sellPos)
               script).1).1).2.2
       | .error _ => []))) := by
  simp only [executeBuyLeg]
  rcases hpr : (get_current_price env buySym).1 with msg | price <;> dsimp only
  · simp [List.append_assoc]
  · split <;> simp [List.append_assoc]

/-- Trace decomposition of one buy leg: optional liquidation-sell trace,
optional stale-close-sell trace, optional price-fallback position lookup,
then (when the price was obtained) the buy's `place_market_order` trace. -/
theorem leg_trace_decomp (env : Env) (cfg : TradingConfig)
    (buySym sellSym : String) (buyPos sellPos : Option Position)
    (staleClose : Option Position → Option ℤ) (script : List SubmitResp) :
    ∃ l1 l2 l3 l4,
      (executeBuyLeg env cfg buySym sellSym buyPos sellPos staleClose
        script).2.2 = l1 ++ (l2 ++ (l3 ++ l4)) ∧
      ((oppositeLiquidationQty sellPos = none ∧ l1 = []) ∨
       ∃ q s1, oppositeLiquidationQty sellPos = some q ∧
        l1 = (place_market_order env .sell q sellSym s1).2.2) ∧
      ((staleClose buyPos = none ∧ l2 = []) ∨
       ∃ q s2, staleClose buyPos = some q ∧
        l2 = (place_market_order env .sell q buySym s2).2.2) ∧
      (l3 = [] ∨ l3 = [Event.posLookup buySym]) ∧
      (((∃ msg, (get_current_price env buySym).1 = .error msg) ∧ l4 = []) ∨
       ∃ price s3, (get_current_price env buySym).1 = .ok price ∧
        l4 = (place_market_order env .buy (buyQty cfg.position_size price)
          buySym s3).2.2) := by
  refine ⟨_, _, _, _,
    executeBuyLeg_trace_eq env cfg buySym sellSym buyPos sellPos staleClose
      script, ?_, ?_, price_trace env buySym, ?_⟩
  · rcases runSellStep_trace env sellSym (oppositeLiquidationQty sellPos)
        script with ⟨h1, hp⟩ | ⟨q, hp, h1⟩
    · exact Or.inl ⟨hp, h1⟩
    · exact Or.inr ⟨q, script, hp, h1⟩
  · rcases runSellStep_trace env buySym (staleClose buyPos)
        (runSellStep env sellSym (oppositeLiquidationQty sellPos) script).1
      with ⟨h2, hp⟩ | ⟨q, hp, h2⟩
    · exact Or.inl ⟨hp, h2⟩
    · exact Or.inr ⟨q, _, hp, h2⟩
  · rcases hpr : (get_current_price env buySym).1 with msg | price
    · exact Or.inl ⟨⟨msg, rfl⟩, rfl⟩
    · exact Or.inr ⟨price, _, rfl, rfl⟩

/-- Every cancellation attempt inside one buy leg targets an opposite-side
order. -/
theorem leg_cancelOpposed (env : Env) (cfg : TradingConfig)
    (buySym sellSym : String) (buyPos sellPos : Option Position)
    (staleClose : Option Position → Option ℤ) (script : List SubmitResp) :
    ∀ e ∈ (executeBuyLeg env cfg buySym sellSym buyPos sellPos staleClose
      script).2.2, cancelOpposed e := by
  obtain ⟨l1, l2, l3, l4, htr, h1, h2, h3, h4⟩ :=
    leg_trace_decomp env cfg buySym sellSym buyPos sellPos staleClose script
  rw [htr]
  intro e he
  simp only [List.mem_append] at he
  rcases he with he | he | he | he
  · rcases h1 with ⟨_, rfl⟩ | ⟨q, s1, _, rfl⟩
    · cases he
    · exact place_cancelOpposed env .sell q sellSym s1 e he
  · rcases h2 with ⟨_, rfl⟩ | ⟨q, s2, _, rfl⟩
    · cases he
    · exact place_cancelOpposed env .sell q buySym s2 e he
  · rcases h3 with rfl | rfl
    · cases he
    · simp only [List.mem_singleton] at he; subst he; trivial
  · rcases h4 with ⟨_, rfl⟩ | ⟨price, s3, _, rfl⟩
    · cases he
    · exact place_cancelOpposed env .buy (buyQty cfg.position_size price)
        buySym s3 e he

/-- Every submission inside one buy leg is a liquidation sell of one of the
two symbols or the correctly sized buy. -/
theorem leg_submits (env : Env) (cfg : TradingConfig)
    (buySym sellSym : String) (buyPos sellPos : Option Position)
    (staleClose : Option Position → Option ℤ) (script : List SubmitResp) :
    ∀ e ∈ (executeBuyLeg env cfg buySym sellSym buyPos sellPos staleClose
      script).2.2, isSubmit e = true →
      (∃ q, e = Event.submit .sell q sellSym) ∨
      (∃ q, e = Event.submit .sell q buySym) ∨
      (∃ price, (get_current_price env buySym).1 = .ok price ∧
        e = Event.submit .buy (buyQty cfg.position_size price) buySym) := by
  obtain ⟨l1, l2, l3, l4, htr, h1, h2, h3, h4⟩ :=
    leg_trace_decomp env cfg buySym sellSym buyPos sellPos staleClose script
  rw [htr]
  intro e he hs
  simp only [List.mem_append] at he
  rcases he with he | he | he | he
  · rcases h1 with ⟨_, rfl⟩ | ⟨q, s1, _, rfl⟩
    · cases he
    · exact Or.inl ⟨q, place_submits env .sell q sellSym s1 e he hs⟩
  · rcases h2 with ⟨_, rfl⟩ | ⟨q, s2, _, rfl⟩
    · cases he
    · exact Or.inr (Or.inl ⟨q, place_submits env .sell q buySym s2 e he hs⟩)
  · rcases h3 with rfl | rfl
    · cases he
    · simp only [List.mem_singleton] at he; subst he; cases hs
  · rcases h4 with ⟨_, rfl⟩ | ⟨price, s3, hpr, rfl⟩
    · cases he
    · exact Or.inr (Or.inr ⟨price, hpr,
        place_submits env .buy (buyQty cfg.position_size price) buySym s3
          e he hs⟩)

/-- When the price fetch succeeded, the correctly sized buy submission
appears in the leg's trace. -/
theorem leg_buy_submit_mem (env : Env) (cfg : TradingConfig)
    (buySym sellSym : String) (buyPos sellPos : Option Position)
    (staleClose : Option Position → Option ℤ) (script : List SubmitResp)
    (price : ℚ) (hpr : (get_current_price env buySym).1 = .ok price) :
    Event.submit .buy (buyQty cfg.position_size price) buySym ∈
      (executeBuyLeg env cfg buySym sellSym buyPos sellPos staleClose
        script).2.2 := by
  obtain ⟨l1, l2, l3, l4, htr, h1, h2, h3, h4⟩ :=
    leg_trace_decomp env cfg buySym sellSym buyPos sellPos staleClose script
  rw [htr]
  rcases h4 with ⟨⟨msg, hmsg⟩, _⟩ | ⟨price2, s3, hpr2, rfl⟩
  · rw [hpr] at hmsg; cases hmsg
  · rw [hpr] at hpr2
    obtain rfl := Except.ok.inj hpr2
    simp only [List.mem_append]
    exact Or.inr (Or.inr (Or.inr
      (place_submit_mem env .buy (buyQty cfg.position_size price) buySym s3)))

/-- When the liquidation plan for the opposite symbol is empty and the two
symbols differ, no sell of the opposite symbol is ever submitted in the
leg. -/
theorem leg_no_opposite_sell (env : Env) (cfg : TradingConfig)
    (buySym sellSym : String) (buyPos sellPos : Option Position)
    (staleClose : Option Position → Option ℤ) (script : List SubmitResp)
    (hplan : oppositeLiquidationQty sellPos = none)
    (hne : buySym ≠ sellSym) :
    ∀ q, Event.submit .sell q sellSym ∉
      (executeBuyLeg env cfg buySym sellSym buyPos sellPos staleClose
        script).2.2 := by
  intro q hmem
  obtain ⟨l1, l2, l3, l4, htr, h1, h2, h3, h4⟩ :=
    leg_trace_decomp env cfg buySym sellSym buyPos sellPos staleClose script
  rw [htr] at hmem
  simp only [List.mem_append] at hmem
  rcases hmem with hm | hm | hm | hm
  · rcases h1 with ⟨_, rfl⟩ | ⟨q3, s1, hsome, rfl⟩
    · cases hm
    · rw [hplan] at hsome; cases hsome
  · rcases h2 with ⟨_, rfl⟩ | ⟨q3, s2, _, rfl⟩
    · cases hm
    · have h := place_submits env .sell q3 buySym s2 _ hm rfl
      injection h with _ _ hsym
      exact hne hsym.symm
  · rcases h3 with rfl | rfl
    · cases hm
    · simp at hm
  · rcases h4 with ⟨_, rfl⟩ | ⟨price, s3, _, rfl⟩
    · cases hm
    · have h := place_submits env .buy (buyQty cfg.position_size price)
        buySym s3 _ hm rfl
      injection h with hside _ _
      cases hside

/-- Unfolding equation for `execute_trade` on a non-BUY decision. -/
theorem execute_trade_eq_hold (env : Env) (cfg : TradingConfig)
    (signal : TradingSignal) (script : List SubmitResp)
    (h : signal.action ≠ "BUY") :
    execute_trade env cfg signal script = (none, script, []) := by
  simp [execute_trade, h]

/-- Unfolding equation for `execute_trade` on a BUY of the configured
(target) symbol. -/
theorem execute_trade_eq_buyTarget (env : Env) (cfg : TradingConfig)
    (signal : TradingSignal) (script : List SubmitResp)
    (hA : signal.action = "BUY") (hS : signal.symbol = cfg.symbol) :
    execute_trade env cfg signal script =
      ((executeBuyLeg env cfg cfg.symbol cfg.inverse_symbol
          (okFlatten (get_current_position env cfg.symbol).1)
          (okFlatten (get_current_position env cfg.inverse_symbol).1)
          staleCloseQtyTarget script).1,
       (executeBuyLeg env cfg cfg.symbol cfg.inverse_symbol
          (okFlatten (get_current_position env cfg.symbol).1)
          (okFlatten (get_current_position env cfg.inverse_symbol).1)
          staleCloseQtyTarget script).2.1,
       Event.posLookup cfg.symbol :: Event.posLookup cfg.inverse_symbol ::
         (executeBuyLeg env cfg cfg.symbol cfg.inverse_symbol
            (okFlatten (get_current_position env cfg.symbol).1)
            (okFlatten (get_current_position env cfg.inverse_symbol).1)
            staleCloseQtyTarget script).2.2) := by
  simp [execute_trade, hA, hS, pos_trace]

/-- Unfolding equation for `execute_trade` on a BUY of the configured
inverse symbol (when it differs from the target symbol). -/
theorem execute_trade_eq_buyInverse (env : Env) (cfg : TradingConfig)
    (signal : TradingSignal) (script : List SubmitResp)
    (hA : signal.action = "BUY") (hNe : signal.symbol ≠ cfg.symbol)
    (hS : signal.symbol = cfg.inverse_symbol) :
    execute_trade env cfg signal script =
      ((executeBuyLeg env cfg cfg.inverse_symbol cfg.symbol
          (okFlatten (get_current_position env cfg.inverse_symbol).1)
          (okFlatten (get_current_position env cfg.symbol).1)
          staleCloseQtyInverse script).1,
       (executeBuyLeg env cfg cfg.inverse_symbol cfg.symbol
          (okFlatten (get_current_position env cfg.inverse_symbol).1)
          (okFlatten (get_current_position env cfg.symbol).1)
          staleCloseQtyInverse script).2.1,
       Event.posLookup cfg.symbol :: Event.posLookup cfg.inverse_symbol ::
         (executeBuyLeg env cfg cfg.inverse_symbol cfg.symbol
            (okFlatten (get_current_position env cfg.inverse_symbol).1)
            (okFlatten (get_current_position env cfg.symbol).1)
            staleCloseQtyInverse script).2.2) := by
  have hne' : cfg.inverse_symbol ≠ cfg.symbol := hS ▸ hNe
  simp [execute_trade, hA, hS, hne', pos_trace]

/-- Unfolding equation for `execute_trade` on a BUY of an unsupported
symbol. -/
theorem execute_trade_eq_other (env : Env) (cfg : TradingConfig)
    (signal : TradingSignal) (script : List SubmitResp)
    (hA : signal.action = "BUY") (h1 : signal.symbol ≠ cfg.symbol)
    (h2 : signal.symbol ≠ cfg.inverse_symbol) :
    execute_trade env cfg signal script =
      (none, script,
       [Event.posLookup cfg.symbol, Event.posLookup cfg.inverse_symbol]) := by
  simp [execute_trade, hA, h1, h2, pos_trace]

/-- Every cancellation attempt anywhere in an `execute_trade` run targets
an order on the side opposite to the order being placed. -/
theorem execute_cancelOpposed (env : Env) (cfg : TradingConfig)
    (signal : TradingSignal) (script : List SubmitResp) :
    ∀ e ∈ (execute_trade env cfg signal script).2.2, cancelOpposed e := by
  by_cases hA : signal.action = "BUY"
  · by_cases hS : signal.symbol = cfg.symbol
    · rw [execute_trade_eq_buyTarget env cfg signal script hA hS]
      intro e he
      simp only [List.mem_cons] at he
      rcases he with rfl | rfl | he
      · trivial
      · trivial
      · exact leg_cancelOpposed env cfg cfg.symbol cfg.inverse_symbol _ _
          staleCloseQtyTarget script e he
    · by_cases hS2 : signal.symbol = cfg.inverse_symbol
      · rw [execute_trade_eq_buyInverse env cfg signal script hA hS hS2]
        intro e he
        simp only [List.mem_cons] at he
        rcases he with rfl | rfl | he
        · trivial
        · trivial
        · exact leg_cancelOpposed env cfg cfg.inverse_symbol cfg.symbol _ _
            staleCloseQtyInverse script e he
      · rw [execute_trade_eq_other env cfg signal script hA hS hS2]
        intro e he
        simp only [List.mem_cons, List.not_mem_nil, or_false] at he
        rcases he with rfl | rfl <;> trivial
  · rw [execute_trade_eq_hold env cfg signal script hA]
    intro e he
    cases he

/-! ## Fill accounting: relating traces to simulated broker positions -/

theorem fillDelta_nil (s : String) : fillDelta [] s = 0 := rfl

theorem fillDelta_cons (e : Event) (tr : List Event) (s : String) :
    fillDelta (e :: tr) s = fillEventDelta s e + fillDelta tr s := by
  simp [fillDelta]

theorem fillDelta_append (l1 l2 : List Event) (s : String) :
    fillDelta (l1 ++ l2) s = fillDelta l1 s + fillDelta l2 s := by
  simp [fillDelta]

theorem fillDelta_eq_zero {tr : List Event} {s : String}
    (h : ∀ e ∈ tr, fillEventDelta s e = 0) : fillDelta tr s = 0 := by
  unfold fillDelta
  refine List.sum_eq_zero ?_
  intro x hx
  obtain ⟨e, he, rfl⟩ := List.mem_map.mp hx
  exact h e he

theorem cancel_no_fill (env : Env) (sym : String) (side : Side)
    (s : String) :
    ∀ e ∈ (cancel_opposite_orders env sym side).2, fillEventDelta s e = 0 := by
  intro e he
  unfold cancel_opposite_orders at he
  split at he
  · simp only [List.mem_singleton] at he; subst he; rfl
  · split at he
    · simp only [List.mem_singleton] at he; subst he; rfl
    · split at he <;>
        simp only [List.cons_append, List.mem_cons, List.mem_append,
          List.mem_singleton, List.not_mem_nil, or_false] at he
      · rcases he with rfl | he | rfl
        · rfl
        · obtain ⟨o, _, _, rfl⟩ := mem_cancelAttemptEvents he; rfl
        · rfl
      · rcases he with rfl | he
        · rfl
        · obtain ⟨o, _, _, rfl⟩ := mem_cancelAttemptEvents he; rfl

theorem cancel_fillDelta (env : Env) (sym : String) (side : Side)
    (s : String) :
    fillDelta (cancel_opposite_orders env sym side).2 s = 0 :=
  fillDelta_eq_zero (cancel_no_fill env sym side s)

theorem resolve_fillDelta (env : Env) (order : AlpacaOrder) (s : String) :
    fillDelta (resolve_order_status env order).2 s = 0 := by
  rcases resolve_trace env order with h | h <;> rw [h] <;>
    simp [fillDelta, fillEventDelta]

theorem submissionSuccess_fillDelta (env : Env) (order : AlpacaOrder)
    (side : Side) (qty : ℤ) (sym s : String) :
    fillDelta (submissionSuccess env order side qty sym).2 s =
      fillEventDelta s (Event.fill side qty sym) := by
  rw [show (submissionSuccess env order side qty sym).2 =
      [Event.fill side qty sym, Event.sleepSec 2] ++
        (resolve_order_status env order).2 from rfl]
  rw [fillDelta_append, fillDelta_cons, fillDelta_cons, fillDelta_nil,
    resolve_fillDelta]
  simp [fillEventDelta]

/-- A `place_market_order` call either succeeds and its trace's fill effect
on any symbol is exactly that of one fill of the requested order, or it
fails and its trace has no fill effect at all. -/
theorem place_result_fillDelta (env : Env) (side : Side) (qty : ℤ)
    (sym : String) (script : List SubmitResp) (s : String) :
    ((∃ r, (place_market_order env side qty sym script).1 = .ok r) ∧
      fillDelta (place_market_order env side qty sym script).2.2 s =
        fillEventDelta s (Event.fill side qty sym)) ∨
    ((∃ m, (place_market_order env side qty sym script).1 = .error m) ∧
      fillDelta (place_market_order env side qty sym script).2.2 s = 0) := by
  simp only [place_market_order]
  split
  · next _ order _ =>
    refine Or.inl ⟨⟨_, rfl⟩, ?_⟩
    simp [fillDelta_append, fillDelta_cons, fillDelta_nil,
      cancel_fillDelta, submissionSuccess_fillDelta, fillEventDelta]
  · refine Or.inr ⟨⟨_, rfl⟩, ?_⟩
    simp [fillDelta_append, fillDelta_cons, fillDelta_nil,
      cancel_fillDelta, fillEventDelta]
  · split
    · split
      · next _ order _ =>
        refine Or.inl ⟨⟨_, rfl⟩, ?_⟩
        simp [fillDelta_append, fillDelta_cons, fillDelta_nil,
          cancel_fillDelta, submissionSuccess_fillDelta, fillEventDelta]
      · refine Or.inr ⟨⟨_, rfl⟩, ?_⟩
        simp [fillDelta_append, fillDelta_cons, fillDelta_nil,
          cancel_fillDelta, fillEventDelta]
    · refine Or.inr ⟨⟨_, rfl⟩, ?_⟩
      simp [fillDelta_append, fillDelta_cons, fillDelta_nil,
        cancel_fillDelta, fillEventDelta]

theorem place_fillDelta_ne (env : Env) (side : Side) (qty : ℤ)
    (sym : String) (script : List SubmitResp) (s : String) (hne : sym ≠ s) :
    fillDelta (place_market_order env side qty sym script).2.2 s = 0 := by
  rcases place_result_fillDelta env side qty sym script s with
    ⟨_, h⟩ | ⟨_, h⟩
  · rw [h]; simp [fillEventDelta, hne]
  · exact h

theorem place_fillDelta_ok (env : Env) (side : Side) (qty : ℤ)
    (sym : String) (script : List SubmitResp) (s : String) (r : TradeResult)
    (hok : (place_market_order env side qty sym script).1 = .ok r) :
    fillDelta (place_market_order env side qty sym script).2.2 s =
      fillEventDelta s (Event.fill side qty sym) := by
  rcases place_result_fillDelta env side qty sym script s with
    ⟨_, h⟩ | ⟨⟨m, hm⟩, _⟩
  · exact h
  · rw [hok] at hm; cases hm

theorem price_fillDelta (env : Env) (sym s : String) :
    fillDelta (get_current_price env sym).2 s = 0 := by
  rcases price_trace env sym with h | h <;> rw [h] <;>
    simp [fillDelta, fillEventDelta]

theorem find_symbol_applyFill (P : List Position) (e : Event) (s : String) :
    ((applyFillEvent P e).find? fun p => p.symbol = s).isSome =
    (P.find? fun p => p.symbol = s).isSome := by
  cases e <;> try rfl
  rename_i side qty sym
  induction P with
  | nil => rfl
  | cons p P ih =>
    simp only [applyFillEvent, List.map_cons] at ih ⊢
    by_cases hps : p.symbol = s
    · rw [List.find?_cons_of_pos _ (by simp [hps]),
        List.find?_cons_of_pos _ (by simp [hps])]
      rfl
    · rw [List.find?_cons_of_neg _ (by simp [hps]),
        List.find?_cons_of_neg _ (by simp [hps])]
      exact ih

/-- Head unfolding for the simulated quantity. -/
theorem simQty_cons (x : Position) (L : List Position) (s : String) :
    simQty (x :: L) s = if x.symbol = s then x.qty else simQty L s := by
  by_cases hx : x.symbol = s
  · rw [if_pos hx]
    unfold simQty
    rw [List.find?_cons_of_pos _ (by simp [hx])]
  · rw [if_neg hx]
    unfold simQty
    rw [List.find?_cons_of_neg _ (by simp [hx])]

theorem simQty_applyFill (P : List Position) (e : Event) (s : String)
    (h : (P.find? fun p => p.symbol = s).isSome = true) :
    simQty (applyFillEvent P e) s = simQty P s + fillEventDelta s e := by
  cases e <;> try (simp [applyFillEvent, fillEventDelta])
  rename_i side qty sym
  induction P with
  | nil => cases h
  | cons p P ih =>
    simp only [applyFillEvent, List.map_cons] at ih ⊢
    rw [simQty_cons, simQty_cons]
    by_cases hps : p.symbol = s
    · rw [if_pos hps, if_pos hps]
      by_cases hsym : p.symbol = sym
      · have hss : sym = s := by rw [← hsym, hps]
        rw [if_pos hsym]
        simp [fillEventDelta, hss]
      · have hss : ¬ sym = s := fun hc => hsym (by rw [hps, hc])
        rw [if_neg hsym]
        simp [fillEventDelta, hss]
    · rw [if_neg hps, if_neg hps]
      refine ih ?_
      rwa [List.find?_cons_of_neg _ (by simp [hps])] at h

/-- Replaying a trace's fills over any position list that has a row for
symbol `s` shifts that row's quantity by exactly the trace's fill delta. -/
theorem simQty_simulateFills (tr : List Event) (P : List Position)
    (s : String) (h : (P.find? fun p => p.symbol = s).isSome = true) :
    simQty (simulateFills P tr) s = simQty P s + fillDelta tr s := by
  induction tr generalizing P with
  | nil => simp [simulateFills, fillDelta]
  | cons e tr ih =>
    have h' : ((applyFillEvent P e).find? fun p => p.symbol = s).isSome
        = true := by rw [find_symbol_applyFill]; exact h
    calc simQty (simulateFills P (e :: tr)) s
        = simQty (simulateFills (applyFillEvent P e) tr) s := rfl
      _ = simQty (applyFillEvent P e) s + fillDelta tr s := ih _ h'
      _ = (simQty P s + fillEventDelta s e) + fillDelta tr s := by
            rw [simQty_applyFill P e s h]
      _ = simQty P s + fillDelta (e :: tr) s := by
            rw [fillDelta_cons]; ring

/-- When the opposite-liquidation plan demands a sell of `q` and that sell
call succeeds, the whole leg's fill effect on the opposite symbol is
exactly −q (the stale close and the buy touch only the bought symbol). -/
theorem leg_fillDelta_sell (env : Env) (cfg : TradingConfig)
    (buySym sellSym : String) (buyPos sellPos : Option Position)
    (staleClose : Option Position → Option ℤ) (script : List SubmitResp)
    (q : ℤ) (r : TradeResult)
    (hplan : oppositeLiquidationQty sellPos = some q)
    (hne : buySym ≠ sellSym)
    (hok : (place_market_order env .sell q sellSym script).1 = .ok r) :
    fillDelta (executeBuyLeg env cfg buySym sellSym buyPos sellPos
      staleClose script).2.2 sellSym = -(q : ℚ) := by
  have h1 : (runSellStep env sellSym (oppositeLiquidationQty sellPos)
      script).2 = (place_market_order env .sell q sellSym script).2.2 := by
    rw [hplan]
    rfl
  rw [executeBuyLeg_trace_eq, fillDelta_append, fillDelta_append,
    fillDelta_append, h1,
    place_fillDelta_ok env .sell q sellSym script sellSym r hok,
    price_fillDelta]
  have h2 : fillDelta (runSellStep env buySym (staleClose buyPos)
      (runSellStep env sellSym (oppositeLiquidationQty sellPos)
        script).1).2 sellSym = 0 := by
    rcases runSellStep_trace env buySym (staleClose buyPos)
        (runSellStep env sellSym (oppositeLiquidationQty sellPos) script).1
      with ⟨h2', _⟩ | ⟨q2, _, h2'⟩ <;> rw [h2']
    · rfl
    · exact place_fillDelta_ne env .sell q2 buySym _ sellSym hne
  rw [h2]
  have h4 : fillDelta
      (match (get_current_price env buySym).1 with
       | .ok price =>
         (place_market_order env .buy (buyQty cfg.position_size price)
           buySym (runSellStep env buySym (staleClose buyPos)
             (runSellStep env sellSym (oppositeLiquidationQty sellPos)
               script).1).1).2.2
       | .error _ => []) sellSym = 0 := by
    rcases hpr : (get_current_price env buySym).1 with m | price
    · rfl
    · exact place_fillDelta_ne env .buy _ buySym _ sellSym hne
  rw [h4]
  simp [fillEventDelta]

/-- When the opposite-liquidation plan demands a sell of `q`, the leg's
trace splits into a prefix holding that sell submission and containing no
buy submission, followed by the rest: the liquidation sell is submitted
before any buy. -/
theorem leg_sell_before_buy (env : Env) (cfg : TradingConfig)
    (buySym sellSym : String) (buyPos sellPos : Option Position)
    (staleClose : Option Position → Option ℤ) (script : List SubmitResp)
    (q : ℤ) (hplan : oppositeLiquidationQty sellPos = some q) :
    ∃ pre post,
      (executeBuyLeg env cfg buySym sellSym buyPos sellPos staleClose
        script).2.2 = pre ++ post ∧
      Event.submit .sell q sellSym ∈ pre ∧
      ∀ (q2 : ℤ) (s2 : String), Event.submit .buy q2 s2 ∉ pre := by
  have h1 : (runSellStep env sellSym (oppositeLiquidationQty sellPos)
      script).2 = (place_market_order env .sell q sellSym script).2.2 := by
    rw [hplan]
    rfl
  have h := executeBuyLeg_trace_eq env cfg buySym sellSym buyPos sellPos
    staleClose script
  rw [h1] at h
  refine ⟨_, _, h, place_submit_mem env .sell q sellSym script, ?_⟩
  intro q2 s2 hmem
  have h' := place_submits env .sell q sellSym script _ hmem rfl
  injection h' with hside _ _
  cases hside

/-! ## Claims -/

/-- Claim C5: for every decision whose action is not BUY (in particular
HOLD), `execute_trade` returns no TradeResult, consumes no submission
script and performs no broker call at all — the event trace is empty, so in
particular no mutating call (cancel, sell, buy) occurs and the broker state
is left unchanged. -/
theorem claim_C5 (env : Env) (cfg : TradingConfig) (signal : TradingSignal)
    (script : List SubmitResp) (h : signal.action ≠ "BUY") :
    execute_trade env cfg signal script = (none, script, []) :=
  execute_trade_eq_hold env cfg signal script h

/-- Witness for C5: a concrete HOLD decision against a concrete mock
broker. -/
theorem claim_C5_witness :
    execute_trade (cleanEnv []) defaultConfig holdSignal acceptScript2 =
      (none, acceptScript2, []) :=
  claim_C5 (cleanEnv []) defaultConfig holdSignal acceptScript2
    (by simp [holdSignal])

/-- Claim C9: a BUY decision whose symbol matches neither the configured
symbol nor the configured inverse symbol makes `execute_trade` return
`none` without consuming the submission script; its trace consists of the
two position lookups only, hence contains no mutating broker call — the
unsupported symbol does not raise an error. -/
theorem claim_C9 (env : Env) (cfg : TradingConfig) (signal : TradingSignal)
    (script : List SubmitResp) (hA : signal.action = "BUY")
    (h1 : signal.symbol ≠ cfg.symbol)
    (h2 : signal.symbol ≠ cfg.inverse_symbol) :
    execute_trade env cfg signal script =
      (none, script,
       [Event.posLookup cfg.symbol, Event.posLookup cfg.inverse_symbol]) ∧
    ∀ e ∈ (execute_trade env cfg signal script).2.2, isMutating e = false := by
  have h := execute_trade_eq_other env cfg signal script hA h1 h2
  refine ⟨h, ?_⟩
  rw [h]
  intro e he
  simp only [List.mem_cons, List.not_mem_nil, or_false] at he
  rcases he with rfl | rfl <;> rfl

/-- Witness for C9: a concrete BUY of an untracked symbol under the default
configuration. -/
theorem claim_C9_witness :
    execute_trade (cleanEnv []) defaultConfig (buySignal "TSLA")
      acceptScript2 =
      (none, acceptScript2, [Event.posLookup "BOIL", Event.posLookup "KOLD"]) := by
  have h := claim_C9 (cleanEnv []) defaultConfig (buySignal "TSLA")
    acceptScript2 (by simp [buySignal]) (by simp [buySignal, defaultConfig])
    (by simp [buySignal, defaultConfig])
  exact h.1

/-- Claim C7 (theorem supporting the code_bug verdict): the body of
`run_trading_cycle` is an irrefutable match ending in `true`, so the cycle
reports success on every input — including cycles whose trade execution
fails and whose portfolio fetch fails — and the inter-cycle wait is always
the configured `interval_hours × 3600` seconds; the 300-second backoff
branch of `run_continuous` exists but is unreachable. -/
theorem claim_C7 :
    (∀ (cfg : TradingConfig) (c : CycleEnv), run_trading_cycle cfg c = true) ∧
    (∀ (ih : ℕ) (cfg : TradingConfig) (c : CycleEnv),
      cycleSleepSeconds ih (run_trading_cycle cfg c) = ih * 3600) ∧
    cycleSleepSeconds 24 false = 300 :=
  ⟨fun _ _ => rfl,
   fun ih _ _ => by simp [run_trading_cycle, cycleSleepSeconds],
   by simp [cycleSleepSeconds]⟩

/-- Counterexample for C6: with the (environment-reachable) inverted
thresholds buy_threshold = -1, sell_threshold = 1 and all-zero input
signals, the fused total is 0 and the decision is BUY of the target symbol,
yet 0 < sell_threshold — so "action is BUY of the inverse symbol iff
total < sell_threshold", read for all configured thresholds, is false. -/
theorem claim_C6_counterexample :
    calculate_total_signal cfgInverted 0 0 0 = 0 ∧
    ¬ ((((determine_action cfgInverted 0).1 = "BUY" ∧
         (determine_action cfgInverted 0).2.1 = cfgInverted.inverse_symbol)) ↔
       (0 : ℚ) < cfgInverted.sell_threshold) := by
  constructor
  · simp [calculate_total_signal, cfgInverted, defaultConfig]
  · have hda : determine_action cfgInverted 0 = ("BUY", "BOIL", 0) := by
      simp only [determine_action, cfgInverted, defaultConfig, qmin]
      norm_num
    rw [hda]
    simp [cfgInverted, defaultConfig]

/-- Claim C6 as amended: the fused total is exactly the weighted sum of the
three signals; and provided the thresholds are not inverted
(sell_threshold ≤ buy_threshold) and the two configured symbols differ, the
action is BUY(target) iff total > buy_threshold, BUY(inverse) iff
total < sell_threshold, and HOLD with an empty symbol otherwise.  The
weights and thresholds are read from the configuration value (the statement
quantifies over them). -/
theorem claim_C6_amended (cfg : TradingConfig) (t i s total : ℚ)
    (hth : cfg.sell_threshold ≤ cfg.buy_threshold)
    (hsym : cfg.symbol ≠ cfg.inverse_symbol) :
    calculate_total_signal cfg t i s =
      t * cfg.temperature_weight + i * cfg.inventory_weight +
        s * cfg.storm_weight ∧
    (((determine_action cfg total).1 = "BUY" ∧
      (determine_action cfg total).2.1 = cfg.symbol) ↔
        cfg.buy_threshold < total) ∧
    (((determine_action cfg total).1 = "BUY" ∧
      (determine_action cfg total).2.1 = cfg.inverse_symbol) ↔
        total < cfg.sell_threshold) ∧
    (((determine_action cfg total).1 = "HOLD" ∧
      (determine_action cfg total).2.1 = "") ↔
        (cfg.sell_threshold ≤ total ∧ total ≤ cfg.buy_threshold)) := by
  have hsym' : cfg.inverse_symbol ≠ cfg.symbol := Ne.symm hsym
  refine ⟨rfl, ?_, ?_, ?_⟩ <;>
    by_cases hb : total > cfg.buy_threshold <;>
    by_cases hs : total < cfg.sell_threshold <;>
    simp [determine_action, hb, hs, hsym, hsym'] <;>
    first
      | linarith
      | (constructor <;> linarith)

/-- Witness for C6: the default configuration (thresholds -0.3/0.3, symbols
BOIL/KOLD) with signals (1, 0, 0): the total is 0.5 and the decision is a
BUY of the target symbol. -/
theorem claim_C6_witness :
    calculate_total_signal defaultConfig 1 0 0 = 1/2 ∧
    (determine_action defaultConfig (1/2)).1 = "BUY" ∧
    (determine_action defaultConfig (1/2)).2.1 = defaultConfig.symbol := by
  have h := claim_C6_amended defaultConfig 1 0 0 (1/2)
    (by norm_num [defaultConfig]) (by simp [defaultConfig])
  refine ⟨?_, h.2.1.mpr (by norm_num [defaultConfig])⟩
  rw [h.1]
  norm_num [defaultConfig]

theorem truncRat_of_nonneg (x : ℚ) (h : 0 ≤ x) : truncRat x = ⌊x⌋ :=
  if_pos h

/-- Closed form of the buy-quantity computation: the `max` with 1 applied
before the saturating i32 cast is the same as flooring, clamping above at
the i32 maximum, and then taking the max with 1. -/
theorem buyQty_clamp (s p : ℚ) :
    buyQty s p = max 1 (min 2147483647 ⌊s / p⌋) := by
  unfold buyQty f64AsI32
  rw [truncRat_of_nonneg _
    (le_trans zero_le_one (le_max_right (s / p) 1))]
  rcases le_total (s / p) 1 with hx | hx
  · rw [max_eq_right hx, Int.floor_one]
    have hfx : ⌊s / p⌋ ≤ 1 := by
      have := Int.floor_le_floor hx
      simpa using this
    omega
  · rw [max_eq_left hx]
    have hfx : (1 : ℤ) ≤ ⌊s / p⌋ := Int.le_floor.mpr (by exact_mod_cast hx)
    omega

/-- Counterexample for C3: with position_size = 2147483648 dollars and
price 1, the Rust `as i32` cast saturates, so the submitted quantity is
2147483647 and not max(1, floor(position_size / price)) = 2147483648. -/
theorem claim_C3_counterexample :
    buyQty 2147483648 1 = 2147483647 ∧
    max 1 ⌊(2147483648 : ℚ) / 1⌋ = 2147483648 ∧
    buyQty 2147483648 1 ≠ max 1 ⌊(2147483648 : ℚ) / 1⌋ := by
  have h1 : (⌊(2147483648 : ℚ) / 1⌋ : ℤ) = 2147483648 := by norm_num
  have h2 : buyQty 2147483648 1 = 2147483647 := by
    rw [buyQty_clamp, h1]
    rw [min_eq_left (by norm_num), max_eq_right (by norm_num)]
  refine ⟨h2, ?_, ?_⟩
  · rw [h1, max_eq_right (by norm_num)]
  · rw [h2, h1, max_eq_right (by norm_num)]
    norm_num

/-- Claim C3 as amended: for every buy submission with fetched price p > 0
and configured position_size s, the submitted quantity is
max(1, floor(s / p)) saturated above at the i32 maximum 2147483647; in
particular it equals max(1, floor(s / p)) whenever floor(s / p) does not
exceed 2147483647, and it is always a positive integer, even when
s / p < 1.  The quantity submitted by `execute_trade`'s buy is exactly
this value. -/
theorem claim_C3_amended :
    (∀ s p : ℚ, 0 < p →
      buyQty s p = max 1 (min 2147483647 ⌊s / p⌋)) ∧
    (∀ s p : ℚ, 0 < p → ⌊s / p⌋ ≤ 2147483647 →
      buyQty s p = max 1 ⌊s / p⌋) ∧
    (∀ s p : ℚ, 0 < p → 1 ≤ buyQty s p) ∧
    (∀ (env : Env) (cfg : TradingConfig) (signal : TradingSignal)
      (script : List SubmitResp) (price : ℚ),
      signal.action = "BUY" → signal.symbol = cfg.symbol →
      (get_current_price env cfg.symbol).1 = .ok price →
      Event.submit .buy (buyQty cfg.position_size price) cfg.symbol ∈
        (execute_trade env cfg signal script).2.2 ∧
      ∀ q sym2, Event.submit .buy q sym2 ∈
          (execute_trade env cfg signal script).2.2 →
        q = buyQty cfg.position_size price ∧ sym2 = cfg.symbol) := by
  refine ⟨fun s p _ => buyQty_clamp s p, ?_, ?_, ?_⟩
  · intro s p _ hfl
    rw [buyQty_clamp, min_eq_right hfl]
  · intro s p _
    rw [buyQty_clamp]
    exact le_max_left 1 _
  · intro env cfg signal script price hA hS hpr
    rw [execute_trade_eq_buyTarget env cfg signal script hA hS]
    constructor
    · simp only [List.mem_cons]
      exact Or.inr (Or.inr (leg_buy_submit_mem env cfg cfg.symbol
        cfg.inverse_symbol _ _ staleCloseQtyTarget script price hpr))
    · intro q sym2 hmem
      simp only [List.mem_cons] at hmem
      rcases hmem with h' | h' | h'
      · simp at h'
      · simp at h'
      · rcases leg_submits env cfg cfg.symbol cfg.inverse_symbol _ _
            staleCloseQtyTarget script _ h' rfl with
          ⟨q2, he⟩ | ⟨q2, he⟩ | ⟨price2, hpr2, he⟩
        · injection he with hside _ _; cases hside
        · injection he with hside _ _; cases hside
        · have heq := hpr.symm.trans hpr2
          obtain rfl := Except.ok.inj heq
          injection he with _ hq hsym2
          exact ⟨hq, hsym2⟩

/-- Witness for C3: position_size 1000 and price 3 give quantity
max(1, floor(1000/3)) = 333. -/
theorem claim_C3_witness :
    buyQty 1000 3 = max 1 ⌊(1000 : ℚ) / 3⌋ :=
  claim_C3_amended.2.1 1000 3 (by norm_num) (by norm_num)

/-- Claim C4: `get_current_price` resolves in three tiers.  A successful
bar response yields the bar's close.  On a 404 the quote endpoint is
consulted, preferring bid, then ask, then the generic price field, erroring
when none is present.  When the quote call also fails, the price is derived
as market_value / qty from an existing position, but only when qty ≠ 0; a
missing position, a failed lookup or qty = 0 yields an error.  A non-404
bar failure is an error. -/
theorem claim_C4 :
    (∀ (env : Env) (sym : String) (c : ℚ),
      env.barResp sym = .okClose (some c) →
      (get_current_price env sym).1 = .ok c) ∧
    (∀ (env : Env) (sym : String) (bp : ℚ) (ap p : Option ℚ),
      env.barResp sym = .status404 →
      env.quoteResp sym = .okQuote (some bp) ap p →
      (get_current_price env sym).1 = .ok bp) ∧
    (∀ (env : Env) (sym : String) (ap : ℚ) (p : Option ℚ),
      env.barResp sym = .status404 →
      env.quoteResp sym = .okQuote none (some ap) p →
      (get_current_price env sym).1 = .ok ap) ∧
    (∀ (env : Env) (sym : String) (p : ℚ),
      env.barResp sym = .status404 →
      env.quoteResp sym = .okQuote none none (some p) →
      (get_current_price env sym).1 = .ok p) ∧
    (∀ (env : Env) (sym : String),
      env.barResp sym = .status404 →
      env.quoteResp sym = .okQuote none none none →
      ∃ m, (get_current_price env sym).1 = .error m) ∧
    (∀ (env : Env) (sym : String) (pos : Position),
      env.barResp sym = .status404 →
      env.quoteResp sym = .httpFail →
      env.posResp sym = .found pos → pos.qty ≠ 0 →
      (get_current_price env sym).1 = .ok (pos.market_value / pos.qty)) ∧
    (∀ (env : Env) (sym : String) (pos : Position),
      env.barResp sym = .status404 →
      env.quoteResp sym = .httpFail →
      env.posResp sym = .found pos → pos.qty = 0 →
      ∃ m, (get_current_price env sym).1 = .error m) ∧
    (∀ (env : Env) (sym : String),
      env.barResp sym = .status404 →
      env.quoteResp sym = .httpFail →
      (env.posResp sym = .status404 ∨ env.posResp sym = .errWith404 ∨
        env.posResp sym = .errOther) →
      ∃ m, (get_current_price env sym).1 = .error m) ∧
    (∀ (env : Env) (sym : String),
      env.barResp sym = .httpErr →
      ∃ m, (get_current_price env sym).1 = .error m) ∧
    (∀ (env : Env) (sym : String),
      env.barResp sym = .okClose none →
      ∃ m, (get_current_price env sym).1 = .error m) := by
  refine ⟨?_, ?_, ?_, ?_, ?_, ?_, ?_, ?_, ?_, ?_⟩
  · intro env sym c hbar
    simp [get_current_price, hbar]
  · intro env sym bp ap p hbar hq
    simp [get_current_price, hbar, hq, Option.orElse]
  · intro env sym ap p hbar hq
    simp [get_current_price, hbar, hq, Option.orElse]
  · intro env sym p hbar hq
    simp [get_current_price, hbar, hq, Option.orElse]
  · intro env sym hbar hq
    simp [get_current_price, hbar, hq, Option.orElse]
  · intro env sym pos hbar hq hpos hqty
    simp [get_current_price, get_current_position, hbar, hq, hpos, hqty]
  · intro env sym pos hbar hq hpos hqty
    simp [get_current_price, get_current_position, hbar, hq, hpos, hqty]
  · intro env sym hbar hq hpos
    rcases hpos with hpos | hpos | hpos <;>
      simp [get_current_price, get_current_position, hbar, hq, hpos]
  · intro env sym hbar
    simp [get_current_price, hbar]
  · intro env sym hbar
    simp [get_current_price, hbar]

/-- Witness for C4: the two concrete scenarios from the claim — a 404 bar
endpoint with an ask-only quote returns the ask price, and both endpoints
failing with a position of qty 10 / market value 1000 returns 100. -/
theorem claim_C4_witness :
    (get_current_price envAsk "BOIL").1 = .ok (85/2) ∧
    (get_current_price envPosFallback "BOIL").1 = .ok 100 := by
  constructor
  · exact claim_C4.2.2.1 envAsk "BOIL" (85/2) none rfl rfl
  · have hpos : envPosFallback.posResp "BOIL" =
        .found (mkPosition "BOIL" 10 1000) := by
      simp [envPosFallback, cleanEnv, mkPosition]
    have h := claim_C4.2.2.2.2.2.1 envPosFallback "BOIL"
      (mkPosition "BOIL" 10 1000) rfl rfl hpos (by norm_num [mkPosition])
    rw [h]
    norm_num [mkPosition]

/-- Claim C8: `get_current_position` maps an HTTP 404 (and a send error
mentioning 404) to `Ok(None)` rather than an error; only other failures
become errors.  The caller treats that absence exactly as quantity 0: each
liquidation decision of `execute_trade` makes the same (empty) plan for a
missing position as for a zero-quantity one, and under a 404 on the
opposite symbol no liquidation sell of it is ever submitted. -/
theorem claim_C8 :
    (∀ (env : Env) (sym : String), env.posResp sym = .status404 →
      (get_current_position env sym).1 = .ok none) ∧
    (∀ (env : Env) (sym : String), env.posResp sym = .errWith404 →
      (get_current_position env sym).1 = .ok none) ∧
    (∀ (env : Env) (sym : String) (p : Position),
      env.posResp sym = .found p →
      (get_current_position env sym).1 = .ok (some p)) ∧
    (∀ (env : Env) (sym : String), env.posResp sym = .errOther →
      ∃ m, (get_current_position env sym).1 = .error m) ∧
    (∀ p : Position, p.qty = 0 →
      oppositeLiquidationQty (some p) = oppositeLiquidationQty none ∧
      staleCloseQtyTarget (some p) = staleCloseQtyTarget none ∧
      staleCloseQtyInverse (some p) = staleCloseQtyInverse none) ∧
    (∀ (env : Env) (cfg : TradingConfig) (signal : TradingSignal)
      (script : List SubmitResp),
      signal.action = "BUY" → signal.symbol = cfg.symbol →
      cfg.symbol ≠ cfg.inverse_symbol →
      env.posResp cfg.inverse_symbol = .status404 →
      ∀ q, Event.submit .sell q cfg.inverse_symbol ∉
        (execute_trade env cfg signal script).2.2) := by
  refine ⟨?_, ?_, ?_, ?_, ?_, ?_⟩
  · intro env sym h; simp [get_current_position, h]
  · intro env sym h; simp [get_current_position, h]
  · intro env sym p h; simp [get_current_position, h]
  · intro env sym h; simp [get_current_position, h]
  · intro p hq
    refine ⟨?_, ?_, ?_⟩ <;>
      simp [oppositeLiquidationQty, staleCloseQtyTarget,
        staleCloseQtyInverse, hq]
  · intro env cfg signal script hA hS hne h404 q hmem
    rw [execute_trade_eq_buyTarget env cfg signal script hA hS] at hmem
    simp only [List.mem_cons] at hmem
    rcases hmem with h' | h' | h'
    · simp at h'
    · simp at h'
    · have hk : okFlatten (get_current_position env cfg.inverse_symbol).1 =
          none := by
        simp [get_current_position, h404, okFlatten]
      refine leg_no_opposite_sell env cfg cfg.symbol cfg.inverse_symbol _ _
        staleCloseQtyTarget script ?_ hne q h'
      rw [hk]
      rfl

/-- Witness for C8: a concrete broker whose position endpoint 404s for
every symbol: the lookup returns `Ok(None)`, and a BUY of BOIL never
submits a sell of KOLD. -/
theorem claim_C8_witness :
    (get_current_position (cleanEnv []) "BOIL").1 = .ok none ∧
    ∀ q, Event.submit .sell q "KOLD" ∉
      (execute_trade (cleanEnv []) defaultConfig (buySignal "BOIL")
        acceptScript2).2.2 := by
  constructor
  · exact claim_C8.1 (cleanEnv []) "BOIL" (by simp [cleanEnv])
  · have h := claim_C8.2.2.2.2.2 (cleanEnv []) defaultConfig
      (buySignal "BOIL") acceptScript2 (by simp [buySignal])
      (by simp [buySignal, defaultConfig]) (by simp [defaultConfig])
      (by simp [cleanEnv, defaultConfig])
    simpa [defaultConfig] using h

/-- Claim C1: on a 403 rejection whose body indicates a wash-trade
conflict, `place_market_order` performs the cancellation preamble again for
the target symbol, sleeps the longer 2-second settle delay and retries the
submission exactly once.  In general no call submits more than twice; with
a mock broker that wash-rejects once and then accepts, the call returns a
TradeResult after exactly two submissions with the second preamble and the
2-second sleep between them; with a broker that rejects both attempts it
returns an error after exactly two submissions (no third attempt); and a
BUY decision whose final buy fails both attempts makes `execute_trade`
return no TradeResult. -/
theorem claim_C1 :
    (∀ (env : Env) (side : Side) (qty : ℤ) (sym : String)
      (script : List SubmitResp),
      submitCount (place_market_order env side qty sym script).2.2 ≤ 2) ∧
    place_market_order (cleanEnv []) .buy 100 "BOIL" washThenAcceptScript =
      (.ok (mkTradeResult orderB), [],
       [.listOrders "BOIL", .submit .buy 100 "BOIL", .listOrders "BOIL",
        .sleepSec 2, .submit .buy 100 "BOIL", .fill .buy 100 "BOIL",
        .sleepSec 2, .poll "b"]) ∧
    (place_market_order (cleanEnv []) .buy 100 "BOIL" doubleWashScript =
      (.error "Alpaca API error after retry", [],
       [.listOrders "BOIL", .submit .buy 100 "BOIL", .listOrders "BOIL",
        .sleepSec 2, .submit .buy 100 "BOIL"]) ∧
     submitCount
       [.listOrders "BOIL", .submit .buy 100 "BOIL", .listOrders "BOIL",
        .sleepSec 2, .submit .buy 100 "BOIL"] = 2) ∧
    (execute_trade (cleanEnv []) defaultConfig (buySignal "BOIL")
      doubleWashScript).1 = none := by
  have hwash : containsWashTrade washBody = true := by decide
  refine ⟨place_submitCount_le_two, ?_, ⟨?_, by decide⟩, ?_⟩
  · simp [place_market_order, cancel_opposite_orders, cleanEnv, takeSubmit,
      washThenAcceptScript, hwash, submissionSuccess, resolve_order_status,
      mkTradeResult, orderB, mkOrder]
  · simp [place_market_order, cancel_opposite_orders, cleanEnv, takeSubmit,
      doubleWashScript, hwash]
  · simp [execute_trade, executeBuyLeg, runSellStep, place_market_order,
      cancel_opposite_orders, get_current_position, get_current_price,
      cleanEnv, defaultConfig, buySignal, doubleWashScript, hwash,
      oppositeLiquidationQty, staleCloseQtyTarget, okFlatten, takeSubmit]

/-- Counterexample for C2: a fractional opposite position of 5.5 KOLD
shares.  The cycle succeeds end to end — every submission is accepted, the
liquidation sell (of the truncated quantity 5) is submitted before the buy,
no liquidation call fails — yet the simulated broker is left with 0.5 KOLD
shares, not zero. -/
theorem claim_C2_counterexample :
    (execute_trade (cleanEnv [mkPosition "KOLD" (11/2) 0]) defaultConfig
      (buySignal "BOIL") acceptScript2).1 = some (mkTradeResult orderB) ∧
    simQty (simulateFills [mkPosition "KOLD" (11/2) 0]
      (execute_trade (cleanEnv [mkPosition "KOLD" (11/2) 0]) defaultConfig
        (buySignal "BOIL") acceptScript2).2.2) "KOLD" = 1/2 ∧
    ((1 : ℚ)/2) ≠ 0 := by
  have hq : (0 : ℚ) < 11/2 := by norm_num
  have habs : |(11/2 : ℚ)| = 11/2 := abs_of_pos hq
  have htr : f64AsI32 (11/2) = 5 := by
    unfold f64AsI32
    rw [truncRat_of_nonneg _ hq.le]
    norm_num
  have hrun : execute_trade (cleanEnv [mkPosition "KOLD" (11/2) 0])
      defaultConfig (buySignal "BOIL") acceptScript2 =
      (some (mkTradeResult orderB), [],
       [.posLookup "BOIL", .posLookup "KOLD", .listOrders "KOLD",
        .submit .sell 5 "KOLD", .fill .sell 5 "KOLD", .sleepSec 2,
        .poll "a", .listOrders "BOIL", .submit .buy 100 "BOIL",
        .fill .buy 100 "BOIL", .sleepSec 2, .poll "b"]) := by
    simp [execute_trade, executeBuyLeg, runSellStep, place_market_order,
      cancel_opposite_orders, get_current_position, get_current_price,
      cleanEnv, defaultConfig, buySignal, acceptScript2,
      oppositeLiquidationQty, staleCloseQtyTarget, okFlatten, takeSubmit,
      submissionSuccess, resolve_order_status, mkTradeResult, orderA,
      orderB, mkOrder, mkPosition, buyQty, hq, habs, htr, f64AsI32,
      truncRat]
    norm_num
  refine ⟨by rw [hrun], ?_, by norm_num⟩
  rw [hrun]
  simp [simulateFills, applyFillEvent, simQty, mkPosition]
  norm_num

/-- Claim C2 as amended: for every BUY decision targeting either tracked
symbol T (with distinct configured symbols), against any broker environment
and submission script, if the opposite symbol O's position lookup yields
qty > 0 then: (a) a sell for the full truncated absolute quantity of O is
submitted in a trace prefix containing no buy submission — the liquidation
precedes the buy; (b) when that liquidation call succeeds ("no liquidation
call fails"), replaying the cycle's fills over any broker position list
with a row for O shifts O's quantity by exactly minus the truncated
amount; (c) hence O ends at zero whenever its quantity is a whole number
within the i32 range; and (d) a failing liquidation does not abort the
cycle: whenever the price fetch succeeds, the correctly sized buy of T is
still submitted.  The first conjunct covers BUY(symbol), the second the
mirror branch BUY(inverse_symbol). -/
theorem claim_C2_amended :
    (∀ (env : Env) (cfg : TradingConfig) (signal : TradingSignal)
      (script : List SubmitResp) (kp : Position),
      signal.action = "BUY" → signal.symbol = cfg.symbol →
      cfg.symbol ≠ cfg.inverse_symbol →
      okFlatten (get_current_position env cfg.inverse_symbol).1 = some kp →
      0 < kp.qty →
      (∃ pre post,
        (execute_trade env cfg signal script).2.2 = pre ++ post ∧
        Event.submit .sell (f64AsI32 |kp.qty|) cfg.inverse_symbol ∈ pre ∧
        ∀ (q2 : ℤ) (s2 : String), Event.submit .buy q2 s2 ∉ pre) ∧
      ((∃ r, (place_market_order env .sell (f64AsI32 |kp.qty|)
          cfg.inverse_symbol script).1 = .ok r) →
        ∀ P : List Position,
          (P.find? fun p => p.symbol = cfg.inverse_symbol).isSome = true →
          simQty (simulateFills P (execute_trade env cfg signal script).2.2)
            cfg.inverse_symbol =
          simQty P cfg.inverse_symbol - (f64AsI32 |kp.qty| : ℚ)) ∧
      ((∃ r, (place_market_order env .sell (f64AsI32 |kp.qty|)
          cfg.inverse_symbol script).1 = .ok r) →
        ∀ n : ℤ, kp.qty = (n : ℚ) → n ≤ 2147483647 →
        ∀ P : List Position,
          (P.find? fun p => p.symbol = cfg.inverse_symbol).isSome = true →
          simQty P cfg.inverse_symbol = kp.qty →
          simQty (simulateFills P (execute_trade env cfg signal script).2.2)
            cfg.inverse_symbol = 0) ∧
      (∀ price, (get_current_price env cfg.symbol).1 = .ok price →
        Event.submit .buy (buyQty cfg.position_size price) cfg.symbol ∈
          (execute_trade env cfg signal script).2.2)) ∧
    (∀ (env : Env) (cfg : TradingConfig) (signal : TradingSignal)
      (script : List SubmitResp) (kp : Position),
      signal.action = "BUY" → signal.symbol = cfg.inverse_symbol →
      cfg.symbol ≠ cfg.inverse_symbol →
      okFlatten (get_current_position env cfg.symbol).1 = some kp →
      0 < kp.qty →
      (∃ pre post,
        (execute_trade env cfg signal script).2.2 = pre ++ post ∧
        Event.submit .sell (f64AsI32 |kp.qty|) cfg.symbol ∈ pre ∧
        ∀ (q2 : ℤ) (s2 : String), Event.submit .buy q2 s2 ∉ pre) ∧
      ((∃ r, (place_market_order env .sell (f64AsI32 |kp.qty|)
          cfg.symbol script).1 = .ok r) →
        ∀ P : List Position,
          (P.find? fun p => p.symbol = cfg.symbol).isSome = true →
          simQty (simulateFills P (execute_trade env cfg signal script).2.2)
            cfg.symbol =
          simQty P cfg.symbol - (f64AsI32 |kp.qty| : ℚ)) ∧
      ((∃ r, (place_market_order env .sell (f64AsI32 |kp.qty|)
          cfg.symbol script).1 = .ok r) →
        ∀ n : ℤ, kp.qty = (n : ℚ) → n ≤ 2147483647 →
        ∀ P : List Position,
          (P.find? fun p => p.symbol = cfg.symbol).isSome = true →
          simQty P cfg.symbol = kp.qty →
          simQty (simulateFills P (execute_trade env cfg signal script).2.2)
            cfg.symbol = 0) ∧
      (∀ price, (get_current_price env cfg.inverse_symbol).1 = .ok price →
        Event.submit .buy (buyQty cfg.position_size price)
          cfg.inverse_symbol ∈
          (execute_trade env cfg signal script).2.2)) := by
  constructor
  · intro env cfg signal script kp hA hS hsymne hk hq
    have heq := execute_trade_eq_buyTarget env cfg signal script hA hS
    have hplan : oppositeLiquidationQty
        (okFlatten (get_current_position env cfg.inverse_symbol).1) =
        some (f64AsI32 |kp.qty|) := by
      rw [hk]
      simp [oppositeLiquidationQty, hq]
    have hmain : (∃ r, (place_market_order env .sell (f64AsI32 |kp.qty|)
        cfg.inverse_symbol script).1 = .ok r) →
        ∀ P : List Position,
          (P.find? fun p => p.symbol = cfg.inverse_symbol).isSome = true →
          simQty (simulateFills P (execute_trade env cfg signal script).2.2)
            cfg.inverse_symbol =
          simQty P cfg.inverse_symbol - (f64AsI32 |kp.qty| : ℚ) := by
      rintro ⟨r, hok⟩ P hrow
      have hdelta : fillDelta (execute_trade env cfg signal script).2.2
          cfg.inverse_symbol = -(f64AsI32 |kp.qty| : ℚ) := by
        rw [heq]
        dsimp only
        rw [fillDelta_cons, fillDelta_cons,
          leg_fillDelta_sell env cfg cfg.symbol cfg.inverse_symbol _ _
            staleCloseQtyTarget script (f64AsI32 |kp.qty|) r hplan hsymne
            hok]
        simp [fillEventDelta]
      rw [simQty_simulateFills _ _ _ hrow, hdelta]
      ring
    refine ⟨?_, hmain, ?_, ?_⟩
    · obtain ⟨pre, post, htr, hmem, hnobuy⟩ := leg_sell_before_buy env cfg
        cfg.symbol cfg.inverse_symbol _ _ staleCloseQtyTarget script
        (f64AsI32 |kp.qty|) hplan
      refine ⟨Event.posLookup cfg.symbol ::
        Event.posLookup cfg.inverse_symbol :: pre, post, ?_, ?_, ?_⟩
      · rw [heq]
        dsimp only
        rw [htr]
        rfl
      · exact List.mem_cons_of_mem _ (List.mem_cons_of_mem _ hmem)
      · intro q2 s2 hmem2
        simp only [List.mem_cons] at hmem2
        rcases hmem2 with h' | h' | h'
        · simp at h'
        · simp at h'
        · exact hnobuy q2 s2 h'
    · intro hok n hn hbound P hrow hprior
      rw [hmain hok P hrow, hprior, hn]
      have hnpos : (0 : ℤ) < n := by
        have hq' : (0 : ℚ) < (n : ℚ) := hn ▸ hq
        exact_mod_cast hq'
      have habs : |(n : ℚ)| = (n : ℚ) := abs_of_pos (by exact_mod_cast hnpos)
      have hfn : f64AsI32 (n : ℚ) = n := by
        unfold f64AsI32
        rw [truncRat_of_nonneg _ (by exact_mod_cast hnpos.le),
          Int.floor_intCast, min_eq_right hbound,
          max_eq_right (by omega)]
      rw [habs, hfn]
      ring
    · intro price hpr
      rw [heq]
      dsimp only
      exact List.mem_cons_of_mem _ (List.mem_cons_of_mem _
        (leg_buy_submit_mem env cfg cfg.symbol cfg.inverse_symbol _ _
          staleCloseQtyTarget script price hpr))
  · intro env cfg signal script kp hA hS2 hsymne hk hq
    have hNe : signal.symbol ≠ cfg.symbol := by
      rw [hS2]
      exact Ne.symm hsymne
    have heq := execute_trade_eq_buyInverse env cfg signal script hA hNe hS2
    have hne' : cfg.inverse_symbol ≠ cfg.symbol := Ne.symm hsymne
    have hplan : oppositeLiquidationQty
        (okFlatten (get_current_position env cfg.symbol).1) =
        some (f64AsI32 |kp.qty|) := by
      rw [hk]
      simp [oppositeLiquidationQty, hq]
    have hmain : (∃ r, (place_market_order env .sell (f64AsI32 |kp.qty|)
        cfg.symbol script).1 = .ok r) →
        ∀ P : List Position,
          (P.find? fun p => p.symbol = cfg.symbol).isSome = true →
          simQty (simulateFills P (execute_trade env cfg signal script).2.2)
            cfg.symbol =
          simQty P cfg.symbol - (f64AsI32 |kp.qty| : ℚ) := by
      rintro ⟨r, hok⟩ P hrow
      have hdelta : fillDelta (execute_trade env cfg signal script).2.2
          cfg.symbol = -(f64AsI32 |kp.qty| : ℚ) := by
        rw [heq]
        dsimp only
        rw [fillDelta_cons, fillDelta_cons,
          leg_fillDelta_sell env cfg cfg.inverse_symbol cfg.symbol _ _
            staleCloseQtyInverse script (f64AsI32 |kp.qty|) r hplan hne'
            hok]
        simp [fillEventDelta]
      rw [simQty_simulateFills _ _ _ hrow, hdelta]
      ring
    refine ⟨?_, hmain, ?_, ?_⟩
    · obtain ⟨pre, post, htr, hmem, hnobuy⟩ := leg_sell_before_buy env cfg
        cfg.inverse_symbol cfg.symbol _ _ staleCloseQtyInverse script
        (f64AsI32 |kp.qty|) hplan
      refine ⟨Event.posLookup cfg.symbol ::
        Event.posLookup cfg.inverse_symbol :: pre, post, ?_, ?_, ?_⟩
      · rw [heq]
        dsimp only
        rw [htr]
        rfl
      · exact List.mem_cons_of_mem _ (List.mem_cons_of_mem _ hmem)
      · intro q2 s2 hmem2
        simp only [List.mem_cons] at hmem2
        rcases hmem2 with h' | h' | h'
        · simp at h'
        · simp at h'
        · exact hnobuy q2 s2 h'
    · intro hok n hn hbound P hrow hprior
      rw [hmain hok P hrow, hprior, hn]
      have hnpos : (0 : ℤ) < n := by
        have hq' : (0 : ℚ) < (n : ℚ) := hn ▸ hq
        exact_mod_cast hq'
      have habs : |(n : ℚ)| = (n : ℚ) := abs_of_pos (by exact_mod_cast hnpos)
      have hfn : f64AsI32 (n : ℚ) = n := by
        unfold f64AsI32
        rw [truncRat_of_nonneg _ (by exact_mod_cast hnpos.le),
          Int.floor_intCast, min_eq_right hbound,
          max_eq_right (by omega)]
      rw [habs, hfn]
      ring
    · intro price hpr
      rw [heq]
      dsimp only
      exact List.mem_cons_of_mem _ (List.mem_cons_of_mem _
        (leg_buy_submit_mem env cfg cfg.inverse_symbol cfg.symbol _ _
          staleCloseQtyInverse script price hpr))

/-- Witness for C2 (amended): the target branch of the theorem applied to
a concrete cooperative broker holding a whole-number opposite position of
3 KOLD shares — the liquidation is exact and the simulated opposite
position ends at zero. -/
theorem claim_C2_witness :
    simQty (simulateFills [mkPosition "KOLD" (3 : ℚ) 0]
      (execute_trade (cleanEnv [mkPosition "KOLD" (3 : ℚ) 0]) defaultConfig
        (buySignal "BOIL") acceptScript2).2.2) "KOLD" = 0 := by
  have habs3 : |(3 : ℚ)| = 3 := by norm_num
  have h3 : f64AsI32 (3 : ℚ) = 3 := by
    unfold f64AsI32
    rw [truncRat_of_nonneg _ (by norm_num)]
    norm_num
  have h := (claim_C2_amended.1 (cleanEnv [mkPosition "KOLD" (3 : ℚ) 0])
    defaultConfig (buySignal "BOIL") acceptScript2 (mkPosition "KOLD" 3 0)
    (by simp [buySignal]) (by simp [buySignal, defaultConfig])
    (by simp [defaultConfig])
    (by simp [get_current_position, cleanEnv, okFlatten, defaultConfig,
      mkPosition])
    (by norm_num [mkPosition])).2.2.1
  have hok : (place_market_order (cleanEnv [mkPosition "KOLD" (3 : ℚ) 0])
      .sell (f64AsI32 |(mkPosition "KOLD" 3 0).qty|)
      defaultConfig.inverse_symbol acceptScript2).1 =
      .ok (mkTradeResult orderA) := by
    simp [place_market_order, cancel_opposite_orders, cleanEnv,
      defaultConfig, acceptScript2, takeSubmit, submissionSuccess,
      resolve_order_status, mkTradeResult, orderA, mkOrder, mkPosition,
      habs3, h3]
  have hz := h ⟨mkTradeResult orderA, hok⟩ 3 (by norm_num [mkPosition])
    (by norm_num) [mkPosition "KOLD" (3 : ℚ) 0]
    (by simp [mkPosition, defaultConfig])
    (by simp [simQty, mkPosition, defaultConfig, List.find?])
  simpa [defaultConfig] using hz

/-- Claim C10: the cancel-conflicting-orders preamble and the wash-trade
cancel-and-retry policy live inside `place_market_order`, so they apply to
every submission routed through it — the liquidation sells included — and
never touch same-side resting orders: (1) every cancellation attempt of any
`place_market_order` call targets an opposite-side order; (2) every
`place_market_order` trace starts by listing the symbol's open orders
(the preamble precedes every submission); (3) the same holds across a whole
`execute_trade` run; (4) concretely, a liquidation sell of KOLD with a
resting buy and a resting sell order on KOLD cancels only the buy order,
runs the preamble again and retries once when the sell is wash-rejected,
and the resting sell order is never cancelled. -/
theorem claim_C10 :
    (∀ (env : Env) (side : Side) (qty : ℤ) (sym : String)
      (script : List SubmitResp),
      ∀ e ∈ (place_market_order env side qty sym script).2.2,
        cancelOpposed e) ∧
    (∀ (env : Env) (side : Side) (qty : ℤ) (sym : String)
      (script : List SubmitResp),
      ∃ t, (place_market_order env side qty sym script).2.2 =
        Event.listOrders sym :: t) ∧
    (∀ (env : Env) (cfg : TradingConfig) (signal : TradingSignal)
      (script : List SubmitResp),
      ∀ e ∈ (execute_trade env cfg signal script).2.2, cancelOpposed e) ∧
    (execute_trade envLiquidation defaultConfig (buySignal "BOIL")
      washLiquidationScript).2.2 =
      [.posLookup "BOIL", .posLookup "KOLD",
       .listOrders "KOLD", .cancelOrder "rb" .buy .sell, .sleepSec 1,
       .submit .sell 3 "KOLD",
       .listOrders "KOLD", .cancelOrder "rb" .buy .sell, .sleepSec 1,
       .sleepSec 2, .submit .sell 3 "KOLD",
       .fill .sell 3 "KOLD", .sleepSec 2, .poll "a",
       .listOrders "BOIL", .submit .buy 100 "BOIL", .fill .buy 100 "BOIL",
       .sleepSec 2, .poll "b"] ∧
    (∀ (a b : Side), Event.cancelOrder "rs" a b ∉
      ([.posLookup "BOIL", .posLookup "KOLD",
        .listOrders "KOLD", .cancelOrder "rb" .buy .sell, .sleepSec 1,
        .submit .sell 3 "KOLD",
        .listOrders "KOLD", .cancelOrder "rb" .buy .sell, .sleepSec 1,
        .sleepSec 2, .submit .sell 3 "KOLD",
        .fill .sell 3 "KOLD", .sleepSec 2, .poll "a",
        .listOrders "BOIL", .submit .buy 100 "BOIL", .fill .buy 100 "BOIL",
        .sleepSec 2, .poll "b"] : List Event)) := by
  have hwash : containsWashTrade washBody = true := by decide
  have habs3 : |(3 : ℚ)| = 3 := by norm_num
  have h3 : f64AsI32 (3 : ℚ) = 3 := by
    unfold f64AsI32
    rw [truncRat_of_nonneg _ (by norm_num)]
    norm_num
  have hbq : f64AsI32 ((1000 : ℚ)/10 ⊔ 1) = 100 := by
    rw [show ((1000 : ℚ)/10 ⊔ 1) = 100 by
      rw [max_eq_left (by norm_num)]; norm_num]
    unfold f64AsI32
    rw [truncRat_of_nonneg _ (by norm_num)]
    norm_num
  refine ⟨place_cancelOpposed, place_trace_head, execute_cancelOpposed,
    ?_, ?_⟩
  · simp [execute_trade, executeBuyLeg, runSellStep, place_market_order,
      cancel_opposite_orders, cancelAttemptEvents, cancelledCount,
      get_current_position, get_current_price, cleanEnv, envLiquidation,
      defaultConfig, buySignal, washLiquidationScript, hwash,
      oppositeLiquidationQty, staleCloseQtyTarget, okFlatten, takeSubmit,
      submissionSuccess, resolve_order_status, mkTradeResult, orderA,
      orderB, mkOrder, mkPosition, restingBuyOrder, restingSellOrder,
      buyQty, Side.opposite, h3, hbq, habs3]
  · intro a b hmem
    rcases a <;> rcases b <;> simp at hmem

/-- Witness for C10: the cancellation attempt appearing in the concrete
liquidation scenario indeed targets an opposite-side order. -/
theorem claim_C10_witness :
    cancelOpposed (Event.cancelOrder "rb" Side.buy Side.sell) := by
  apply claim_C10.2.2.1 envLiquidation defaultConfig (buySignal "BOIL")
    washLiquidationScript
  rw [claim_C10.2.2.2.1]
  simp

end HotOrCold
